import Mathlib

/-!
Verification development for the decoupled fetch front-end
(`src/decoupled_frontend.cc`): the fetch target queue (FTQ), its
producer, consumer, iterator protocol, misprediction recovery, and the
adaptive FTQ-depth controller.

The C++ code is shallowly embedded: each C++ function becomes a Lean
function over an explicit per-core state record.  Assertion failures
and out-of-bounds accesses (which abort the simulator) are modelled by
`Option`: `none` means the C++ run would have aborted (or, for fetch
functions, reported unavailability; the distinction is noted at each
definition).  Machine integers (`uint64_t`) are modelled as `Nat`;
the doubles used by the adaptive-depth controller are idealised as
exact rationals, with `std::round` modelled as round-half-away-from-zero.
-/

namespace DecoupledFE

/-- `FT_Ended_By` enum: why a fetch target was closed. `INIT` = still open. -/
inductive FT_Ended_By where
  | INIT
  | ICACHE_LINE_BOUNDARY
  | TAKEN_BRANCH
  | BAR_FETCH
  | APP_EXIT
  deriving DecidableEq, Repr

/-- The fields of an `Op` that the decoupled front-end reads or writes.
`addr`/`size` come from `inst_info`; `cf` is `table_info->cf_type != 0`;
`bar_fetch` is `table_info->bar_type & BAR_FETCH`; `syscall` is
`IS_CALLSYS(table_info)`; `pred_taken` is `oracle_info.pred == TAKEN`.
`op_num` doubles as the op's identity (pointer identity in C++). -/
structure Op where
  addr : Nat
  size : Nat
  bom : Bool
  eom : Bool
  cf : Bool
  bar_fetch : Bool
  syscall : Bool
  exit : Bool
  pred_taken : Bool
  recover_at_decode : Bool
  recover_at_exec : Bool
  op_num : Nat
  off_path : Bool
  inst_uid : Nat
  deriving DecidableEq, Repr

/-- `FT` struct: a fetch target.  `op_pos` is the consumer read cursor. -/
structure FT where
  ops : List Op
  op_pos : Nat
  start : Nat
  length : Nat
  ended_by : FT_Ended_By
  deriving DecidableEq, Repr

/-- A value-initialized `FT()` (all members zeroed). -/
def FT.init : FT := ⟨[], 0, 0, 0, .INIT⟩

instance : Inhabited FT := ⟨FT.init⟩

/-- `decoupled_fe_iter`: an FTQ iterator. -/
structure Iter where
  ft_pos : Nat
  op_pos : Nat
  flattened_op_pos : Nat
  deriving DecidableEq, Repr

/-- A freshly constructed iterator. -/
def Iter.zero : Iter := ⟨0, 0, 0⟩

/-- `Utility_Timeliness_Info` shared with the FDIP prefetcher. -/
structure UtilInfo where
  utility_ratio : ℚ
  timeliness_ratio : ℚ
  adjust : Bool
  deriving DecidableEq, Repr

/-- The statistics counters the claims mention. -/
structure Stats where
  recover_decode : Nat
  recover_exec : Nat
  offpath_cycles : Nat
  deriving DecidableEq, Repr

/-- Configuration constants fixed at init. -/
structure Config where
  FDIP_ADJUSTABLE_FTQ : Nat
  UFTQ_MIN_FTQ_BLOCK_NUM : Nat
  UFTQ_MAX_FTQ_BLOCK_NUM : Nat
  ICACHE_LINE_SIZE : Nat
  FE_FTQ_BLOCK_NUM : Nat
  FDIP_BP_CONFIDENCE : Bool
  trace_mode : Bool
  deriving DecidableEq, Repr

/-- The fields of `bp_recovery_info` that `recover_decoupled_fe` reads:
the recovery fetch address, the recovery op's `op_num`
(`recovery_op_num`), its `recover_at_decode` / `recover_at_exec` oracle
flags (used for the stat events), and the recovery inst uid. -/
structure RecoveryInfo where
  fetch_addr : Nat
  op_num : Nat
  recover_at_decode : Bool
  recover_at_exec : Bool
  inst_uid : Nat
  deriving DecidableEq, Repr

/-- The per-core state of the decoupled front-end.  `fe_next` abstracts
the external front-end's next fetch address (`frontend_next_fetch_addr`);
`freed` records every op released back to the pool via `free_op`, in
order; `cycle_count` is the global cycle counter. -/
structure DFEState where
  ftq : List FT
  ft_to_push : FT
  ft_in_use : FT
  off_path : Bool
  sched_off_path : Bool
  op_count : Nat
  iters : List Iter
  recovery_addr : Nat
  redirect_cycle : Nat
  stalled : Bool
  ftq_ft_num : Nat
  util : UtilInfo
  cycle_count : Nat
  fe_next : Nat
  freed : List Op
  stats : Stats
  deriving DecidableEq, Repr

/-! ## FT member functions -/

/-- The closing half of `FT::ft_add_op`: if `ft_ended_by != FT_ENDED_BY_INIT`,
assert `op->eom && !length`, assert `start`, set `length`, assert
`ended_by == FT_ENDED_BY_INIT`, set `ended_by`. -/
def ft_close (ft : FT) (op : Op) (e : FT_Ended_By) : Option FT :=
  if e = FT_Ended_By.INIT then some ft
  else if op.eom ∧ ft.length = 0 ∧ ft.start ≠ 0 ∧ ft.ended_by = FT_Ended_By.INIT then
    some { ft with length := op.addr + op.size - ft.start, ended_by := e }
  else none

/-- `FT::ft_add_op`.  On the first op assert `op->bom && !start` and set
`start`; on later ops assert contiguity with `ops.back()` (`bom` ops are
address-consecutive, non-`bom` micro-ops share the address); then append
and possibly close.  `none` models an assertion abort. -/
def ft_add_op (ft : FT) (op : Op) (e : FT_Ended_By) : Option FT :=
  match ft.ops.getLast? with
  | none =>
    if op.bom ∧ ft.start = 0 then
      ft_close { ft with start := op.addr, ops := ft.ops ++ [op] } op e
    else none
  | some last =>
    if (if op.bom then last.addr + last.size = op.addr else last.addr = op.addr) then
      ft_close { ft with ops := ft.ops ++ [op] } op e
    else none

/-- The ops of an FT not yet consumed (from the read cursor onward);
these are exactly the ops `FT::ft_free_ops_and_clear` passes to `free_op`. -/
def residual (ft : FT) : List Op := ft.ops.drop ft.op_pos

/-- `FT::ft_can_fetch_op`. -/
def FT.ft_can_fetch_op (ft : FT) : Bool := ft.op_pos < ft.ops.length

/-- `FT::ft_fetch_op`: deliver `ops[op_pos]`, report end-of-FT, advance the
cursor.  `none` models the `return false` path (cursor already at the end). -/
def ft_fetch_op (ft : FT) : Option (Op × Bool × FT) :=
  match ft.ops.get? ft.op_pos with
  | none => none
  | some op =>
    some (op, decide (ft.op_pos + 1 = ft.ops.length), { ft with op_pos := ft.op_pos + 1 })

/-- `FT::ft_return_op`: assert the cursor is nonzero and the returned op is
identity-equal to `ops[op_pos-1]` (the most recently delivered op), then
move the cursor back by one. -/
def ft_return_op (ft : FT) (op : Op) : Option FT :=
  if ft.op_pos ≠ 0 ∧ ft.ops.get? (ft.op_pos - 1) = some op then
    some { ft with op_pos := ft.op_pos - 1 }
  else none

/-! ## Producer (`update_decoupled_fe`, one loop iteration) -/

/-- `ROUND_DOWN(a, ICACHE_LINE_SIZE)`: the I-cache line base of `a`
(the macro masks with the power-of-two line size; for a power of two this
equals truncating division then multiplication). -/
def lineBase (lineSize a : Nat) : Nat := a / lineSize * lineSize

/-- The fetch-target termination decision of `update_decoupled_fe`
(lines computing `ft_ended_by`): evaluated only on `eom` ops, first
matching reason in the order `APP_EXIT`, `BAR_FETCH`, `TAKEN_BRANCH`,
`ICACHE_LINE_BOUNDARY`; otherwise the FT stays open (`INIT`). -/
def computeEndedBy (cfg : Config) (op : Op) : FT_Ended_By :=
  if op.eom then
    let offset := op.addr + op.size - lineBase cfg.ICACHE_LINE_SIZE op.addr
    let end_of_icache_line := cfg.ICACHE_LINE_SIZE ≤ offset
    let cf_taken := op.cf ∧ op.pred_taken
    let bar_fetch := op.syscall ∨ op.bar_fetch
    if op.exit then FT_Ended_By.APP_EXIT
    else if bar_fetch then FT_Ended_By.BAR_FETCH
    else if cf_taken then FT_Ended_By.TAKEN_BRANCH
    else if end_of_icache_line then FT_Ended_By.ICACHE_LINE_BOUNDARY
    else FT_Ended_By.INIT
  else FT_Ended_By.INIT

/-- Stamping of a freshly fetched op by the producer:
`op->op_num = per_core_op_count++` and `op->off_path = *off_path`. -/
def stampOp (f : Op) (s : DFEState) : Op :=
  { f with op_num := s.op_count, off_path := s.off_path }

/-- The control-flow / barrier handling of one producer-loop iteration
(the body between `frontend_fetch_op` and the `ft_ended_by` computation):
returns the op with possibly cleared recovery flags together with the
updated state.  `pred_addr` is the branch predictor's `bp_predict_op`
result; `frontend_redirect` is modelled by updating `fe_next`.
`none` models an assertion abort. -/
def handleFetchedOp (cfg : Config) (op0 : Op) (pred_addr : Nat) (s : DFEState) :
    Option (Op × DFEState) :=
  if op0.cf then
    if ¬ op0.eom then none
    else
      let stallBar := op0.bar_fetch ∨ op0.syscall
      let op1 := if stallBar then
          { op0 with recover_at_decode := false, recover_at_exec := false }
        else op0
      let s1 := if stallBar then { s with stalled := true } else s
      if op1.recover_at_decode ∨ op1.recover_at_exec then
        if op1.recover_at_decode ∧ op1.recover_at_exec then none
        else
          let op2 := if s1.off_path then
              { op1 with recover_at_decode := false, recover_at_exec := false }
            else op1
          some (op2, { s1 with off_path := true, fe_next := pred_addr,
                               redirect_cycle := s1.cycle_count })
      else if cfg.trace_mode ∧ s1.off_path ∧ op1.pred_taken then
        some (op1, { s1 with fe_next := pred_addr })
      else some (op1, s1)
  else
    if op0.recover_at_decode ∨ op0.recover_at_exec then none
    else if op0.bar_fetch then some (op0, { s with stalled := true })
    else some (op0, s)

/-- The recovery-address sanity check at the end of the producer loop
body: a pending recovery address must match the produced op's address
(`a`), and is then cleared. -/
def recovery_sanity (a : Nat) (y : DFEState) : Option DFEState :=
  if y.recovery_addr ≠ 0 then
    if y.recovery_addr = a then some { y with recovery_addr := 0 } else none
  else some y

/-- One iteration of the producer loop of `update_decoupled_fe`, from
`alloc_op`/`frontend_fetch_op` (whose result is the template `f`) to the
recovery-address sanity check.  The per-cycle break checks and the
byte/taken-CF accounting are loop-control only and change no state
modelled here.  `none` models an assertion abort. -/
def producer_step (cfg : Config) (f : Op) (pred_addr : Nat) (s0 : DFEState) :
    Option DFEState :=
  match handleFetchedOp cfg (stampOp f s0) pred_addr { s0 with op_count := s0.op_count + 1 } with
  | none => none
  | some (op, s) =>
    match ft_add_op s.ft_to_push op (computeEndedBy cfg op) with
    | none => none
    | some ft' =>
      if computeEndedBy cfg op ≠ FT_Ended_By.INIT then
        if ft'.start ≠ 0 ∧ ft'.length ≠ 0 ∧ ft'.ops ≠ [] then
          recovery_sanity op.addr { s with ftq := s.ftq ++ [ft'], ft_to_push := FT.init }
        else none
      else recovery_sanity op.addr { s with ft_to_push := ft' }

/-! ## Consumer interface -/

/-- `decoupled_fe_can_fetch_ft`. -/
def decoupled_fe_can_fetch_ft (s : DFEState) : Bool := ¬ s.ftq.isEmpty

/-- `decoupled_fe_can_fetch_op`. -/
def decoupled_fe_can_fetch_op (s : DFEState) : Bool :=
  s.ft_in_use.ft_can_fetch_op ∨ decoupled_fe_can_fetch_ft s

/-- The per-iterator rebase performed by `decoupled_fe_fetch_ft` when the
consumer pops the head FT (`k` is the popped FT's op count), including the
`FDIP_BP_CONFIDENCE` assertion and the two range assertions.
`none` models an assertion abort. -/
def rebase_iter (cfg : Config) (k : Nat) (it : Iter) : Option Iter :=
  if cfg.FDIP_BP_CONFIDENCE ∧ it.ft_pos = 0 ∧ it.op_pos = 0 ∧ it.flattened_op_pos ≠ 0 then
    none
  else if 0 < it.ft_pos then
    if k ≤ it.flattened_op_pos then
      some { it with flattened_op_pos := it.flattened_op_pos - k, ft_pos := it.ft_pos - 1 }
    else none
  else
    if it.flattened_op_pos < k then
      some { it with flattened_op_pos := 0, op_pos := 0 }
    else none

/-- Rebase every registered iterator (the iterator loop of
`decoupled_fe_fetch_ft`). -/
def rebaseAll (cfg : Config) (k : Nat) : List Iter → Option (List Iter)
  | [] => some []
  | it :: rest => do
    let it' ← rebase_iter cfg k it
    let rest' ← rebaseAll cfg k rest
    some (it' :: rest')

/-- `decoupled_fe_fetch_ft`: pop the FTQ head into the in-use slot,
report its start and length, and rebase every iterator.  `none` covers
both the `return false` path (empty FTQ) and iterator-assert aborts. -/
def decoupled_fe_fetch_ft (cfg : Config) (s : DFEState) :
    Option (Nat × Nat × DFEState) := do
  match s.ftq with
  | [] => none
  | ft :: rest => do
    let iters' ← rebaseAll cfg ft.ops.length s.iters
    some (ft.start, ft.length, { s with ftq := rest, ft_in_use := ft, iters := iters' })

/-- `decoupled_fe_fetch_op`.  Result `some (none, s)` is the `return false`
path (nothing to deliver, state unchanged); `some (some (op, end_of_ft), s')`
is a successful delivery; `none` is an assertion abort. -/
def decoupled_fe_fetch_op (cfg : Config) (s : DFEState) :
    Option (Option (Op × Bool) × DFEState) :=
  if s.ft_in_use.ft_can_fetch_op then
    match ft_fetch_op s.ft_in_use with
    | none => none
    | some (op, eof, ft') => some (some (op, eof), { s with ft_in_use := ft' })
  else if s.ftq.isEmpty then some (none, s)
  else
    match decoupled_fe_fetch_ft cfg s with
    | none => none
    | some (_, _, s') =>
      match ft_fetch_op s'.ft_in_use with
      | none => none
      | some (op, eof, ft') => some (some (op, eof), { s' with ft_in_use := ft' })

/-- `decoupled_fe_return_op`. -/
def decoupled_fe_return_op (op : Op) (s : DFEState) : Option DFEState :=
  match ft_return_op s.ft_in_use op with
  | none => none
  | some ft' => some { s with ft_in_use := ft' }

/-- `decoupled_fe_next_fetch_addr`: if the FTQ is empty defer to the
external front-end; else return the address of the *first* op of the
in-use FT if its ops vector is non-empty, else of the FTQ head's first op;
`none` models the final `ASSERT(0)`. -/
def decoupled_fe_next_fetch_addr (s : DFEState) : Option Nat :=
  if s.ftq.isEmpty then some s.fe_next
  else
    match s.ft_in_use.ops.head? with
    | some op => some op.addr
    | none =>
      match s.ftq.head?.bind (fun ft => ft.ops.head?) with
      | some op => some op.addr
      | none => none

/-! ## Iterator protocol -/

/-- `decoupled_fe_new_ftq_iter`: append a zero iterator to the per-core set. -/
def decoupled_fe_new_ftq_iter (s : DFEState) : DFEState :=
  { s with iters := s.iters ++ [Iter.zero] }

/-- `decoupled_fe_ftq_iter_get`.  Result `some none` is the `return NULL`
path; `some (some (op, end_of_ft))` returns the op at `(ft_pos, op_pos)`;
`none` is an assertion abort (notably the empty-FTQ assertion that the
iterator is all-zero). -/
def decoupled_fe_ftq_iter_get (s : DFEState) (it : Iter) :
    Option (Option (Op × Bool)) :=
  if s.ftq.isEmpty ∨ it.ft_pos = s.ftq.length then
    if s.ftq.isEmpty ∧ ¬ (it.ft_pos = 0 ∧ it.op_pos = 0 ∧ it.flattened_op_pos = 0) then
      none
    else some none
  else
    match s.ftq.get? it.ft_pos with
    | none => none
    | some ft =>
      match ft.ops.get? it.op_pos with
      | none => none
      | some op => some (some (op, decide (it.op_pos = ft.ops.length - 1)))

/-- `decoupled_fe_ftq_iter_get_next`: advance the iterator, then read
through `decoupled_fe_ftq_iter_get`.  Returns the advanced iterator and
the read result; `none` is an assertion abort (or an out-of-range
`deque::at`). -/
def decoupled_fe_ftq_iter_get_next (s : DFEState) (it : Iter) :
    Option (Iter × Option (Op × Bool)) :=
  if (it.ft_pos + 1 == s.ftq.length &&
      (s.ftq.get? it.ft_pos).any (fun ft => it.op_pos + 1 == ft.ops.length)) = true then
    some (⟨it.ft_pos + 1, 0, it.flattened_op_pos + 1⟩, none)
  else if it.ft_pos = s.ftq.length then
    if it.op_pos = 0 then some (it, none) else none
  else
    match s.ftq.get? it.ft_pos with
    | none => none
    | some ft =>
      let it' : Iter :=
        if it.op_pos + 1 = ft.ops.length then ⟨it.ft_pos + 1, 0, it.flattened_op_pos + 1⟩
        else ⟨it.ft_pos, it.op_pos + 1, it.flattened_op_pos + 1⟩
      (decoupled_fe_ftq_iter_get s it').map (fun r => (it', r))

/-- `decoupled_fe_ftq_iter_offset`. -/
def decoupled_fe_ftq_iter_offset (it : Iter) : Nat := it.flattened_op_pos

/-- `decoupled_fe_ftq_iter_ft_offset`. -/
def decoupled_fe_ftq_iter_ft_offset (it : Iter) : Nat := it.ft_pos

/-- `decoupled_fe_ftq_num_fts`. -/
def decoupled_fe_ftq_num_fts (s : DFEState) : Nat := s.ftq.length

/-- `decoupled_fe_retire`: a retiring fetch-barrier or syscall op clears
the stall flag (the `seq_op_list` assertion and `frontend_retire` concern
external state and are not modelled). -/
def decoupled_fe_retire (op : Op) (s : DFEState) : DFEState :=
  if op.bar_fetch ∨ op.syscall then { s with stalled := false } else s

/-! ## Adaptive FTQ-depth controller and recovery -/

/-- `std::round` for non-negative arguments (round half away from zero,
which for non-negative `q` is `⌊q + 1/2⌋`), idealising doubles as exact
rationals, then converted to a machine integer. -/
def roundHalfUp (q : ℚ) : Nat := (⌊q + 1 / 2⌋).toNat

/-- `std::round` for possibly negative arguments (round half away from
zero), used by the combined-mode polynomial. -/
def roundAway (q : ℚ) : ℤ := if q < 0 then -⌊-q + 1 / 2⌋ else ⌊q + 1 / 2⌋

/-- Mode 1 (`UFTQ-AUR`): utility-based depth adjustment with threshold
`UTILITY_RATIO_THRESHOLD = 0.70`, one-sided clamp per branch as in the
code. -/
def adjUtil (cfg : Config) (num : Nat) (u : ℚ) : Nat :=
  if u < 7 / 10 then
    let n := num - roundHalfUp (num * (7 / 10 - u))
    if n < cfg.UFTQ_MIN_FTQ_BLOCK_NUM then cfg.UFTQ_MIN_FTQ_BLOCK_NUM else n
  else if 7 / 10 < u then
    let n := num + roundHalfUp (num * (u - 7 / 10))
    if cfg.UFTQ_MAX_FTQ_BLOCK_NUM < n then cfg.UFTQ_MAX_FTQ_BLOCK_NUM else n
  else num

/-- Mode 2 (`UFTQ-ATR`): timeliness-based depth adjustment with threshold
`TIMELINESS_RATIO_THRESHOLD = 0.77`. -/
def adjTime (cfg : Config) (num : Nat) (t : ℚ) : Nat :=
  if t < 77 / 100 then
    let n := num - roundHalfUp (num * (77 / 100 - t))
    if n < cfg.UFTQ_MIN_FTQ_BLOCK_NUM then cfg.UFTQ_MIN_FTQ_BLOCK_NUM else n
  else if 77 / 100 < t then
    let n := num + roundHalfUp (num * (t - 77 / 100))
    if cfg.UFTQ_MAX_FTQ_BLOCK_NUM < n then cfg.UFTQ_MAX_FTQ_BLOCK_NUM else n
  else num

/-- Mode 3 (`UFTQ-ATR-AUR`): the combined polynomial over the two
hypothetical depths `qdaur` and `qdatr`, with two-sided clamping. -/
def adjCombined (cfg : Config) (num : Nat) (u t : ℚ) : Nat :=
  let qdaur : Nat :=
    if u < 7 / 10 then num - roundHalfUp (num * (7 / 10 - u))
    else if 7 / 10 < u then num + roundHalfUp (num * (u - 7 / 10))
    else num
  let qdatr : Nat :=
    if t < 77 / 100 then num - roundHalfUp (num * (77 / 100 - t))
    else if 77 / 100 < t then num + roundHalfUp (num * (t - 77 / 100))
    else num
  let p : ℚ := -2.3 * qdaur - 31.2 * qdatr + 0.007 * (qdaur * qdaur)
    + 0.1 * (qdatr * qdatr) + 0.3 * (qdaur * qdatr)
  let n := (roundAway p).toNat
  if n < cfg.UFTQ_MIN_FTQ_BLOCK_NUM then cfg.UFTQ_MIN_FTQ_BLOCK_NUM
  else if cfg.UFTQ_MAX_FTQ_BLOCK_NUM < n then cfg.UFTQ_MAX_FTQ_BLOCK_NUM
  else n

/-- The adaptive-depth block of `recover_decoupled_fe`: returns the new
depth bound and the new value of the prefetcher `adjust` flag.  Note that
the mode-3 branch of the code does not clear `adjust`. -/
def adjustFTQDepth (cfg : Config) (num : Nat) (info : UtilInfo) : Nat × Bool :=
  if cfg.FDIP_ADJUSTABLE_FTQ ≠ 0 ∧ info.adjust then
    if cfg.FDIP_ADJUSTABLE_FTQ = 1 then (adjUtil cfg num info.utility_ratio, false)
    else if cfg.FDIP_ADJUSTABLE_FTQ = 2 then (adjTime cfg num info.timeliness_ratio, false)
    else if cfg.FDIP_ADJUSTABLE_FTQ = 3 then
      (adjCombined cfg num info.utility_ratio info.timeliness_ratio, info.adjust)
    else (num, info.adjust)
  else (num, info.adjust)

/-- The state produced by a successful `recover_decoupled_fe` (all of its
mutations gathered into one record). -/
def recoverBody (cfg : Config) (ri : RecoveryInfo) (s : DFEState) : DFEState :=
  { ftq := []
    ft_to_push := FT.init
    ft_in_use := FT.init
    off_path := false
    sched_off_path := false
    op_count := ri.op_num + 1
    iters := s.iters.map (fun _ => Iter.zero)
    recovery_addr := ri.fetch_addr
    redirect_cycle := 0
    stalled := false
    ftq_ft_num := (adjustFTQDepth cfg s.ftq_ft_num s.util).1
    util := { s.util with adjust := (adjustFTQDepth cfg s.ftq_ft_num s.util).2 }
    cycle_count := s.cycle_count
    fe_next := ri.fetch_addr
    freed := s.freed ++
      ((s.ftq.map residual).flatten ++ residual s.ft_to_push ++ residual s.ft_in_use)
    stats :=
      { recover_decode := s.stats.recover_decode + (if ri.recover_at_decode then 1 else 0)
        recover_exec := s.stats.recover_exec +
          (if ¬ ri.recover_at_decode ∧ ri.recover_at_exec then 1 else 0)
        offpath_cycles := s.stats.offpath_cycles + (s.cycle_count - s.redirect_cycle) } }

/-- `recover_decoupled_fe`.  `frontend_recover` followed by the
recovery-address assertion is modelled by setting `fe_next` to the
recovery fetch address.  `none` models the
`ASSERT(cycle_count > per_core_redirect_cycle)` abort. -/
def recover (cfg : Config) (ri : RecoveryInfo) (s : DFEState) : Option DFEState :=
  if s.redirect_cycle < s.cycle_count then some (recoverBody cfg ri s) else none

/-! ## Initial state and reachability -/

/-- The state after `alloc_mem_decoupled_fe` + `init_decoupled_fe`:
everything zeroed except `op_count = 1` and the depth bound
`FE_FTQ_BLOCK_NUM`.  The external front-end address, utility info and
cycle counter are environment inputs. -/
def initState (cfg : Config) (fe0 : Nat) (u0 : UtilInfo) : DFEState :=
  { ftq := []
    ft_to_push := FT.init
    ft_in_use := FT.init
    off_path := false
    sched_off_path := false
    op_count := 1
    iters := []
    recovery_addr := 0
    redirect_cycle := 0
    stalled := false
    ftq_ft_num := cfg.FE_FTQ_BLOCK_NUM
    util := u0
    cycle_count := 0
    fe_next := fe0
    freed := []
    stats := ⟨0, 0, 0⟩ }

/-- The states of one core reachable through the decoupled front-end API.
Environment steps (`env`) let the enclosing simulator advance the cycle
counter and let the external front-end / prefetcher update their shared
fields, none of which the front-end owns. -/
inductive Reachable (cfg : Config) : DFEState → Prop where
  | init (fe0 : Nat) (u0 : UtilInfo) : Reachable cfg (initState cfg fe0 u0)
  | producer {s s' : DFEState} (f : Op) (pred_addr : Nat) :
      Reachable cfg s → producer_step cfg f pred_addr s = some s' → Reachable cfg s'
  | fetch_ft {s s' : DFEState} {a b : Nat} :
      Reachable cfg s → decoupled_fe_fetch_ft cfg s = some (a, b, s') → Reachable cfg s'
  | fetch_op {s s' : DFEState} {r : Option (Op × Bool)} :
      Reachable cfg s → decoupled_fe_fetch_op cfg s = some (r, s') → Reachable cfg s'
  | return_op {s s' : DFEState} (op : Op) :
      Reachable cfg s → decoupled_fe_return_op op s = some s' → Reachable cfg s'
  | new_iter {s : DFEState} :
      Reachable cfg s → Reachable cfg (decoupled_fe_new_ftq_iter s)
  | iter_advance {s : DFEState} {it' : Iter} {r : Option (Op × Bool)} (i : Nat)
      (hi : i < s.iters.length) :
      Reachable cfg s →
      decoupled_fe_ftq_iter_get_next s (s.iters.get ⟨i, hi⟩) = some (it', r) →
      Reachable cfg { s with iters := s.iters.set i it' }
  | recovery {s s' : DFEState} (ri : RecoveryInfo) :
      Reachable cfg s → recover cfg ri s = some s' → Reachable cfg s'
  | retire {s : DFEState} (op : Op) :
      Reachable cfg s → Reachable cfg (decoupled_fe_retire op s)
  | env {s : DFEState} (c fe : Nat) (u : UtilInfo) :
      Reachable cfg s → Reachable cfg { s with cycle_count := c, fe_next := fe, util := u }

/-! ## Specification-side notions used by the claims -/

/-- The flattened op sequence of the FTQ: all enqueued ops in order. -/
def flattenFTQ (q : List FT) : List Op := (q.map FT.ops).flatten

/-- The op identity found at flattened position `n` of the FTQ of `s`. -/
def opIdentAt (s : DFEState) (n : Nat) : Option Op := (flattenFTQ s.ftq).get? n

/-- The adjacency required of two neighbouring ops of an FT: a `bom` op
continues at the previous op's end address; micro-ops of one
macro-instruction share the address. -/
def opAdj (a b : Op) : Prop := if b.bom then b.addr = a.addr + a.size else b.addr = a.addr

/-- Well-formedness of a fetch target stored in the FTQ. -/
def ftWF (ft : FT) : Prop :=
  ft.start ≠ 0 ∧ ft.length ≠ 0 ∧ ft.ops ≠ [] ∧ ft.ended_by ≠ FT_Ended_By.INIT ∧
    ft.ops.Chain' opAdj

/-- Total op count of a list of FTs. -/
def sumOps (q : List FT) : Nat := (q.map (fun ft => ft.ops.length)).sum

/-- The position invariant of a registered iterator over the FTQ:
`ft_pos` is at most one past the last FT; a parked iterator has
`op_pos = 0`; otherwise `op_pos` is in range of its FT; and the flattened
position is the op count of the passed FTs plus `op_pos`. -/
def iterWF (q : List FT) (it : Iter) : Prop :=
  it.ft_pos ≤ q.length ∧
  (it.ft_pos = q.length → it.op_pos = 0) ∧
  (∀ ft, q.get? it.ft_pos = some ft → it.op_pos < ft.ops.length) ∧
  it.flattened_op_pos = sumOps (q.take it.ft_pos) + it.op_pos

/-- The state invariant maintained by every front-end operation: every FT
of the FTQ is well-formed, the builder's ops are adjacency-chained, and
every registered iterator satisfies the position invariant. -/
def Inv (s : DFEState) : Prop :=
  (∀ ft ∈ s.ftq, ftWF ft) ∧ s.ft_to_push.ops.Chain' opAdj ∧ ∀ it ∈ s.iters, iterWF s.ftq it

/-! ## Concrete instances used to exercise the model -/

/-- A baseline op; concrete ops below override selected fields. -/
def opBase : Op :=
  { addr := 0, size := 0, bom := false, eom := false, cf := false, bar_fetch := false
    syscall := false, exit := false, pred_taken := false, recover_at_decode := false
    recover_at_exec := false, op_num := 0, off_path := false, inst_uid := 0 }

/-- A quiescent utility/timeliness record. -/
def u0 : UtilInfo := ⟨0, 0, false⟩

/-- A small baseline configuration. -/
def cfg0 : Config :=
  { FDIP_ADJUSTABLE_FTQ := 0, UFTQ_MIN_FTQ_BLOCK_NUM := 1, UFTQ_MAX_FTQ_BLOCK_NUM := 32
    ICACHE_LINE_SIZE := 64, FE_FTQ_BLOCK_NUM := 4, FDIP_BP_CONFIDENCE := false
    trace_mode := false }

/-- Ops of the first FT of the C1 scenario. -/
def opA1 : Op := { opBase with addr := 4096, size := 4, bom := true, eom := true, op_num := 1 }

/-- Second op of the first FT of the C1 scenario. -/
def opA2 : Op := { opBase with addr := 4100, size := 4, bom := true, eom := true, op_num := 2 }

/-- The single op of the second FT of the C1 scenario. -/
def opB1 : Op := { opBase with addr := 8192, size := 4, bom := true, eom := true, op_num := 3 }

/-- First FT of the C1 scenario (two ops). -/
def ftA : FT := { ops := [opA1, opA2], op_pos := 0, start := 4096, length := 8
                  ended_by := FT_Ended_By.TAKEN_BRANCH }

/-- Second FT of the C1 scenario (one op). -/
def ftB : FT := { ops := [opB1], op_pos := 0, start := 8192, length := 4
                  ended_by := FT_Ended_By.ICACHE_LINE_BOUNDARY }

/-- C1 scenario: two FTs enqueued, one iterator standing inside the head FT
at `(ft_pos, op_pos, flattened_op_pos) = (0, 1, 1)`. -/
def sC1 : DFEState := { initState cfg0 0 u0 with ftq := [ftA, ftB], iters := [⟨0, 1, 1⟩] }

/-- The state after the consumer pops the head FT of `sC1`. -/
def sC1' : DFEState :=
  ((decoupled_fe_fetch_ft cfg0 sC1).getD (0, 0, initState cfg0 0 u0)).2.2

/-- C1 scenario variant with the iterator past the head FT, at `(1, 0, 2)`. -/
def sC1w : DFEState := { initState cfg0 0 u0 with ftq := [ftA, ftB], iters := [⟨1, 0, 2⟩] }

/-- The state after the consumer pops the head FT of `sC1w`. -/
def sC1w' : DFEState :=
  ((decoupled_fe_fetch_ft cfg0 sC1w).getD (0, 0, initState cfg0 0 u0)).2.2

/-- The op of the C2 scenario. -/
def opC2 : Op := { opBase with addr := 256, size := 4, bom := true, eom := true, op_num := 1 }

/-- C2 scenario: empty FTQ but an in-use FT with one undelivered op, and the
external front-end reporting address 999. -/
def sC2 : DFEState :=
  { initState cfg0 999 u0 with
    ft_in_use := { ops := [opC2], op_pos := 0, start := 256, length := 4
                   ended_by := FT_Ended_By.ICACHE_LINE_BOUNDARY } }

/-- Recovery info used by the C3/C9 scenarios. -/
def riC3 : RecoveryInfo := ⟨4096, 7, false, true, 11⟩

/-- C3 scenario: a state mid-flight (one enqueued FT, a parked iterator, a
pending stall) at cycle 5 with redirect cycle 3. -/
def sC3 : DFEState :=
  { initState cfg0 0 u0 with
    ftq := [ftA], ft_in_use := ftB, iters := [⟨1, 0, 2⟩], stalled := true
    off_path := true, cycle_count := 5, redirect_cycle := 3, op_count := 9 }

/-- The state after recovery from `sC3`. -/
def sC3' : DFEState := (recover cfg0 riC3 sC3).getD (initState cfg0 0 u0)

/-- A syscall op used to instantiate the C4 policy theorem. -/
def opC4 : Op :=
  { opBase with
    addr := 4096, size := 4, bom := true, eom := true, cf := true
    syscall := true, op_num := 1 }

/-- Configuration for the C6 scenario: utility-only mode. -/
def cfg6 : Config := { cfg0 with FDIP_ADJUSTABLE_FTQ := 1 }

/-- C6 scenario: depth 16, utility ratio 0.50, adjust pending, at cycle 1. -/
def s6 : DFEState :=
  { initState cfg6 0 ⟨1 / 2, 0, true⟩ with ftq_ft_num := 16, cycle_count := 1 }

/-- The state after recovery from `s6`. -/
def s6' : DFEState := (recover cfg6 riC3 s6).getD (initState cfg6 0 u0)

/-- Configuration for the C7 scenario: combined mode, depth 100. -/
def cfg7 : Config :=
  { cfg0 with
    FDIP_ADJUSTABLE_FTQ := 3, UFTQ_MAX_FTQ_BLOCK_NUM := 200
    FE_FTQ_BLOCK_NUM := 100 }

/-- C7 scenario: adjust pending with both ratios exactly at threshold. -/
def s7 : DFEState :=
  { initState cfg7 0 ⟨7 / 10, 77 / 100, true⟩ with cycle_count := 1 }

/-- C8 counterexample scenario: the in-use FT (one op) is exhausted, one FT
waits in the FTQ, so the next fetch pops. -/
def sC8 : DFEState :=
  { initState cfg0 0 u0 with
    ft_in_use := { ftA with ops := [opA1], length := 4, op_pos := 1 }
    ftq := [ftB] }

/-- State of the C8 counterexample after `decoupled_fe_fetch_op`. -/
def sC8a : DFEState :=
  ((decoupled_fe_fetch_op cfg0 sC8).getD (none, initState cfg0 0 u0)).2

/-- State of the C8 counterexample after returning the fetched op. -/
def sC8b : DFEState := (decoupled_fe_return_op opB1 sC8a).getD (initState cfg0 0 u0)

/-- C8 witness scenario: the fetch is served from the in-use FT (no pop). -/
def sC8w : DFEState := { initState cfg0 0 u0 with ft_in_use := ftA }

/-- State of the C8 witness after `decoupled_fe_fetch_op`. -/
def sC8wa : DFEState :=
  ((decoupled_fe_fetch_op cfg0 sC8w).getD (none, initState cfg0 0 u0)).2

/-- State of the C8 witness after returning the fetched op. -/
def sC8wb : DFEState := (decoupled_fe_return_op opA1 sC8wa).getD (initState cfg0 0 u0)

/-- C9 scenario: recovery at cycle 5 with redirect cycle 3 (mode 0). -/
def s9 : DFEState :=
  { initState cfg0 4096 u0 with cycle_count := 5, redirect_cycle := 3 }

/-- The state after the first recovery of the C9 scenario. -/
def s9a : DFEState := (recover cfg0 riC3 s9).getD (initState cfg0 0 u0)

/-- The state after the second, immediately following recovery. -/
def s9b : DFEState := (recover cfg0 riC3 s9a).getD (initState cfg0 0 u0)

/-- An op whose production closes an FT by `APP_EXIT` (C5 witness). -/
def f5 : Op := { opBase with addr := 4096, size := 4, bom := true, eom := true, exit := true }

/-- The state after the producer handles `f5` from the initial state. -/
def s5 : DFEState := (producer_step cfg0 f5 0 (initState cfg0 0 u0)).getD (initState cfg0 0 u0)

/-- The FT that producing `f5` pushes (C5 witness). -/
def ft5 : FT :=
  { ops := [{ f5 with op_num := 1 }], op_pos := 0, start := 4096, length := 4
    ended_by := FT_Ended_By.APP_EXIT }

/-- The initial state with one freshly registered iterator (C10 witness). -/
def s10 : DFEState := decoupled_fe_new_ftq_iter (initState cfg0 0 u0)

/-! ## Helper lemmas -/

theorem computeEndedBy_stamp (cfg : Config) (f : Op) (s : DFEState) :
    computeEndedBy cfg (stampOp f s) = computeEndedBy cfg f := rfl

/-- `handleFetchedOp` only clears recovery flags on the op and only touches
the stall/off-path/redirect bookkeeping of the state. -/
theorem handleFetchedOp_spec {cfg : Config} {op0 op : Op} {p : Nat} {s s1 : DFEState}
    (h : handleFetchedOp cfg op0 p s = some (op, s1)) :
    computeEndedBy cfg op = computeEndedBy cfg op0 ∧
    s1.ftq = s.ftq ∧ s1.ft_to_push = s.ft_to_push ∧ s1.iters = s.iters ∧
    s1.op_count = s.op_count ∧ s1.recovery_addr = s.recovery_addr := by
  simp only [handleFetchedOp] at h
  repeat' split at h
  all_goals
    first
      | exact Option.noConfusion h
      | (injection h with h; injection h with h1 h2; subst h1; subst h2
         exact ⟨rfl, rfl, rfl, rfl, rfl, rfl⟩)

/-- Structural inversion of `ft_add_op`: the op is appended, a closing
reason is recorded, and adjacency is preserved. -/
theorem ft_add_op_inv {ft : FT} {op : Op} {e : FT_Ended_By} {ft' : FT}
    (h : ft_add_op ft op e = some ft') :
    ft'.ops = ft.ops ++ [op] ∧ (e ≠ FT_Ended_By.INIT → ft'.ended_by = e) ∧
    (ft.ops.Chain' opAdj → ft'.ops.Chain' opAdj) := by
  have hclose : ∀ g : FT, g.ops = ft.ops ++ [op] → ft_close g op e = some ft' →
      ft'.ops = ft.ops ++ [op] ∧ (e ≠ FT_Ended_By.INIT → ft'.ended_by = e) := by
    intro g hg hc
    unfold ft_close at hc
    split at hc
    · injection hc with hc; subst hc
      exact ⟨hg, fun hne => absurd (by assumption) hne⟩
    · split at hc
      · injection hc with hc; subst hc
        exact ⟨hg, fun _ => rfl⟩
      · exact Option.noConfusion hc
  unfold ft_add_op at h
  split at h
  next hlast =>
    split at h
    next hb =>
      have hc := hclose _ rfl h
      have hnil : ft.ops = [] := List.getLast?_eq_none_iff.mp hlast
      exact ⟨hc.1, hc.2, fun _ => by rw [hc.1, hnil]; simp⟩
    next => exact Option.noConfusion h
  next last hlast =>
    by_cases hcond : (if op.bom then last.addr + last.size = op.addr else last.addr = op.addr)
    · rw [if_pos hcond] at h
      have hc := hclose _ rfl h
      refine ⟨hc.1, hc.2, fun hchain => ?_⟩
      rw [hc.1, List.chain'_append]
      refine ⟨hchain, List.chain'_singleton op, ?_⟩
      intro x hx y hy
      rw [hlast] at hx
      simp only [Option.mem_def, Option.some.injEq] at hx
      simp only [List.head?_cons, Option.mem_def, Option.some.injEq] at hy
      subst hx; subst hy
      unfold opAdj
      by_cases hbom : op.bom = true
      · rw [if_pos hbom] at hcond ⊢
        exact hcond.symm
      · rw [if_neg hbom] at hcond ⊢
        exact hcond.symm
    · rw [if_neg hcond] at h
      exact Option.noConfusion h

/-- Inversion of one producer iteration: the handled op is appended to the
builder; the FT is pushed exactly when the computed reason is not `INIT`,
and then the pushed FT passed the non-zero assertions. -/
theorem producer_step_inv {cfg : Config} {f : Op} {p : Nat} {s s' : DFEState}
    (h : producer_step cfg f p s = some s') :
    ∃ op s1 ft',
      handleFetchedOp cfg (stampOp f s) p { s with op_count := s.op_count + 1 } =
        some (op, s1) ∧
      computeEndedBy cfg op = computeEndedBy cfg f ∧
      ft_add_op s.ft_to_push op (computeEndedBy cfg op) = some ft' ∧
      ((computeEndedBy cfg f = FT_Ended_By.INIT ∧ s'.ftq = s.ftq ∧
          s'.ft_to_push = ft' ∧ s'.iters = s.iters) ∨
        (computeEndedBy cfg f ≠ FT_Ended_By.INIT ∧
          ft'.start ≠ 0 ∧ ft'.length ≠ 0 ∧ ft'.ops ≠ [] ∧
          s'.ftq = s.ftq ++ [ft'] ∧ s'.ft_to_push = FT.init ∧ s'.iters = s.iters)) := by
  have hsain : ∀ (a : Nat) (y s' : DFEState), recovery_sanity a y = some s' →
      s'.ftq = y.ftq ∧ s'.ft_to_push = y.ft_to_push ∧ s'.iters = y.iters := by
    intro a y s' h
    unfold recovery_sanity at h
    split at h
    · split at h
      · injection h with h; subst h; exact ⟨rfl, rfl, rfl⟩
      · exact Option.noConfusion h
    · injection h with h; subst h; exact ⟨rfl, rfl, rfl⟩
  unfold producer_step at h
  cases hh : handleFetchedOp cfg (stampOp f s) p { s with op_count := s.op_count + 1 } with
  | none => rw [hh] at h; exact Option.noConfusion h
  | some pair =>
    obtain ⟨op, s1⟩ := pair
    rw [hh] at h
    obtain ⟨he, hq, hb, hi, _, _⟩ := handleFetchedOp_spec hh
    rw [computeEndedBy_stamp] at he
    dsimp only at h hq hb hi
    cases hadd : ft_add_op s1.ft_to_push op (computeEndedBy cfg op) with
    | none => rw [hadd] at h; exact Option.noConfusion h
    | some ft' =>
      rw [hadd] at h
      rw [hb] at hadd
      refine ⟨op, s1, ft', rfl, he, hadd, ?_⟩
      rw [← he]
      dsimp only at h
      split at h
      case isTrue hne =>
        split at h
        case isTrue hz =>
          obtain ⟨h1, h2, h3⟩ := hsain _ _ _ h
          exact Or.inr ⟨hne, hz.1, hz.2.1, hz.2.2, by rw [h1]; dsimp only; rw [hq],
            by rw [h2], by rw [h3]; dsimp only; rw [hi]⟩
        case isFalse => exact Option.noConfusion h
      case isFalse hne =>
        obtain ⟨h1, h2, h3⟩ := hsain _ _ _ h
        exact Or.inl ⟨not_not.mp hne, by rw [h1]; dsimp only; rw [hq],
          by rw [h2], by rw [h3]; dsimp only; rw [hi]⟩


/-! ## Claim C2: next_fetch_addr -/

/-- C2 (counterexample): with an empty FTQ but a non-empty in-use FT whose
read cursor still has an op (at address 256) to deliver,
`decoupled_fe_next_fetch_addr` returns the external front-end's address
(999), not the PC of the next op to be handed out, contradicting the
claimed contract. -/
theorem C2_counterexample :
    decoupled_fe_next_fetch_addr sC2 = some 999 ∧
    sC2.ftq = [] ∧
    sC2.ft_in_use.ft_can_fetch_op = true ∧
    sC2.ft_in_use.ops.get? sC2.ft_in_use.op_pos = some opC2 ∧
    opC2.addr = 256 ∧ (999 : Nat) ≠ 256 := by
  refine ⟨rfl, rfl, rfl, rfl, rfl, by decide⟩

/-- C2 (amended): `decoupled_fe_next_fetch_addr` defers to the external
front-end exactly when the FTQ is empty (even if the in-use FT still has
undelivered ops); otherwise it returns the address of the first op of the
in-use FT when its ops vector is non-empty (regardless of the read
cursor), else the address of the FTQ head's first op (aborting when both
are empty). -/
theorem C2_next_fetch_addr_amended (s : DFEState) :
    decoupled_fe_next_fetch_addr s =
      if s.ftq.isEmpty then some s.fe_next
      else ((s.ft_in_use.ops ++ (s.ftq.head?.elim [] FT.ops)).head?).map Op.addr := by
  unfold decoupled_fe_next_fetch_addr
  cases hq : s.ftq with
  | nil => simp
  | cons ft rest =>
    cases hu : s.ft_in_use.ops with
    | nil =>
      cases ho : ft.ops with
      | nil => simp [hu, ho]
      | cons a l => simp [hu, ho]
    | cons a l => simp [hu]

/-! ## Claim C3: recovery postconditions -/

/-- C3: after `recover_decoupled_fe`, the FTQ, builder and in-use FT are
empty, the op counter equals `recovery_op.op_num + 1` (so the next
produced op carries that number), every iterator is zeroed, the
fetch-barrier stall is cleared, and exactly the residual ops of the FTQ,
builder and in-use FT were freed back to the pool. -/
theorem C3_recovery_postconditions (cfg : Config) (ri : RecoveryInfo) (s s' : DFEState)
    (h : recover cfg ri s = some s') :
    s'.ftq = [] ∧ s'.ft_to_push = FT.init ∧ s'.ft_in_use = FT.init ∧
    s'.op_count = ri.op_num + 1 ∧ (∀ it ∈ s'.iters, it = Iter.zero) ∧
    s'.stalled = false ∧
    s'.freed = s.freed ++
      ((s.ftq.map residual).flatten ++ residual s.ft_to_push ++ residual s.ft_in_use) ∧
    (∀ f q s'', producer_step cfg f q s' = some s'' → (stampOp f s').op_num = ri.op_num + 1) := by
  unfold recover at h
  split at h
  · injection h with h
    subst h
    refine ⟨rfl, rfl, rfl, rfl, ?_, rfl, rfl, ?_⟩
    · intro it hit
      simp only [recoverBody, List.mem_map] at hit
      obtain ⟨_, _, rfl⟩ := hit
      rfl
    · intro f q s'' _
      rfl
  · exact Option.noConfusion h

/-- C3 (witness): the recovery postconditions at a concrete mid-flight
state. -/
theorem C3_recovery_postconditions_witness :
    recover cfg0 riC3 sC3 = some sC3' ∧
    (sC3'.ftq = [] ∧ sC3'.ft_to_push = FT.init ∧ sC3'.ft_in_use = FT.init ∧
      sC3'.op_count = riC3.op_num + 1 ∧ (∀ it ∈ sC3'.iters, it = Iter.zero) ∧
      sC3'.stalled = false ∧
      sC3'.freed = sC3.freed ++
        ((sC3.ftq.map residual).flatten ++ residual sC3.ft_to_push ++ residual sC3.ft_in_use) ∧
      (∀ f q s'', producer_step cfg0 f q sC3' = some s'' →
        (stampOp f sC3').op_num = riC3.op_num + 1)) :=
  ⟨by decide, C3_recovery_postconditions cfg0 riC3 sC3 sC3' (by decide)⟩

/-! ## Claim C4: FT termination policy -/

/-- C4: the producer's FT-closing reason is computed only on `eom` ops and
is the first matching reason in priority order `APP_EXIT`, `BAR_FETCH`
(syscall or fetch-barrier), `TAKEN_BRANCH` (taken control flow),
`ICACHE_LINE_BOUNDARY` (the op reaches past the current I-cache line);
with no match, or on a non-`eom` op, the FT stays open (no FT is pushed by
that producer iteration). -/
theorem C4_ft_termination_policy (cfg : Config) (f : Op) (q : Nat) (s s' : DFEState) :
    (f.eom = false → computeEndedBy cfg f = FT_Ended_By.INIT) ∧
    (f.eom = true → f.exit = true → computeEndedBy cfg f = FT_Ended_By.APP_EXIT) ∧
    (f.eom = true → f.exit = false → (f.syscall = true ∨ f.bar_fetch = true) →
      computeEndedBy cfg f = FT_Ended_By.BAR_FETCH) ∧
    (f.eom = true → f.exit = false → f.syscall = false → f.bar_fetch = false →
      f.cf = true → f.pred_taken = true → computeEndedBy cfg f = FT_Ended_By.TAKEN_BRANCH) ∧
    (f.eom = true → f.exit = false → f.syscall = false → f.bar_fetch = false →
      ¬ (f.cf = true ∧ f.pred_taken = true) →
      cfg.ICACHE_LINE_SIZE ≤ f.addr + f.size - lineBase cfg.ICACHE_LINE_SIZE f.addr →
      computeEndedBy cfg f = FT_Ended_By.ICACHE_LINE_BOUNDARY) ∧
    (f.eom = true → f.exit = false → f.syscall = false → f.bar_fetch = false →
      ¬ (f.cf = true ∧ f.pred_taken = true) →
      f.addr + f.size - lineBase cfg.ICACHE_LINE_SIZE f.addr < cfg.ICACHE_LINE_SIZE →
      computeEndedBy cfg f = FT_Ended_By.INIT) ∧
    (producer_step cfg f q s = some s' →
      (computeEndedBy cfg f = FT_Ended_By.INIT → s'.ftq = s.ftq) ∧
      (computeEndedBy cfg f ≠ FT_Ended_By.INIT → s'.ftq.length = s.ftq.length + 1)) := by
  refine ⟨?_, ?_, ?_, ?_, ?_, ?_, ?_⟩
  · intro h1; simp [computeEndedBy, h1]
  · intro h1 h2; simp [computeEndedBy, h1, h2]
  · intro h1 h2 h3
    rcases h3 with h3 | h3 <;> simp [computeEndedBy, h1, h2, h3]
  · intro h1 h2 h3 h4 h5 h6; simp [computeEndedBy, h1, h2, h3, h4, h5, h6]
  · intro h1 h2 h3 h4 h5 h6
    have hcf : ¬ (f.cf = true ∧ f.pred_taken = true) := h5
    simp only [computeEndedBy, h1, h2, h3, h4, if_true, if_false]
    simp [hcf, h6]
  · intro h1 h2 h3 h4 h5 h6
    have hlt : ¬ cfg.ICACHE_LINE_SIZE ≤ f.addr + f.size - lineBase cfg.ICACHE_LINE_SIZE f.addr :=
      not_le.mpr h6
    simp only [computeEndedBy, h1, h2, h3, h4, if_true, if_false]
    simp [h5, hlt]
  · intro h
    obtain ⟨op, s1, ft', _, _, _, hcase⟩ := producer_step_inv h
    constructor
    · intro hinit
      rcases hcase with ⟨_, hq, _, _⟩ | ⟨hne, _⟩
      · exact hq
      · exact absurd hinit hne
    · intro hne
      rcases hcase with ⟨hinit, _⟩ | ⟨_, _, _, _, hq, _⟩
      · exact absurd hinit hne
      · rw [hq]; simp

/-- C4 (witness): the policy instantiated at a concrete syscall op, which
closes the FT with `BAR_FETCH`. -/
theorem C4_ft_termination_policy_witness :
    opC4.eom = true ∧ opC4.exit = false ∧ opC4.syscall = true ∧
    computeEndedBy cfg0 opC4 = FT_Ended_By.BAR_FETCH :=
  ⟨rfl, rfl, rfl,
    (C4_ft_termination_policy cfg0 opC4 0 (initState cfg0 0 u0)
      (initState cfg0 0 u0)).2.2.1 rfl rfl (Or.inl rfl)⟩

/-! ## Claim C6: adaptive depth, utility-only mode -/

theorem option_eq_some_getD {A : Type} (o : Option A) (d : A) (h : o.isSome = true) :
    o = some (o.getD d) := by
  cases o with
  | none => cases h
  | some a => rfl

/-- The one-sided clamps of the utility branch coincide with a two-sided
clamp whenever the incoming depth is itself within bounds. -/
theorem adjUtil_eq_clamp (cfg : Config) (num : Nat) (u : ℚ)
    (h1 : cfg.UFTQ_MIN_FTQ_BLOCK_NUM ≤ num) (h2 : num ≤ cfg.UFTQ_MAX_FTQ_BLOCK_NUM) :
    adjUtil cfg num u =
      max cfg.UFTQ_MIN_FTQ_BLOCK_NUM (min cfg.UFTQ_MAX_FTQ_BLOCK_NUM
        (if 7 / 10 < u then num + roundHalfUp (num * (u - 7 / 10))
         else if u < 7 / 10 then num - roundHalfUp (num * (7 / 10 - u))
         else num)) := by
  unfold adjUtil
  rcases lt_trichotomy u (7 / 10 : ℚ) with hu | hu | hu
  · rw [if_pos hu, if_neg (not_lt.mpr hu.le), if_pos hu]
    dsimp only
    split <;> omega
  · rw [if_neg (by rw [hu]; exact lt_irrefl _), if_neg (by rw [hu]; exact lt_irrefl _),
      if_neg (by rw [hu]; exact lt_irrefl _), if_neg (by rw [hu]; exact lt_irrefl _)]
    omega
  · rw [if_neg (not_lt.mpr hu.le), if_pos hu, if_pos hu]
    dsimp only
    split <;> omega

theorem adjUtil_c6 : adjUtil cfg6 16 (1 / 2) = 13 := by
  unfold adjUtil roundHalfUp
  rw [if_pos (by norm_num : (1 / 2 : ℚ) < 7 / 10)]
  dsimp only
  norm_num [cfg6, cfg0]
  decide

theorem adjustFTQDepth_c6 :
    adjustFTQDepth cfg6 s6.ftq_ft_num s6.util = (13, false) := by
  show adjustFTQDepth cfg6 16 ⟨1 / 2, 0, true⟩ = (13, false)
  unfold adjustFTQDepth
  rw [if_pos ⟨by decide, rfl⟩, if_pos (by decide : cfg6.FDIP_ADJUSTABLE_FTQ = 1)]
  rw [show (⟨(1 : ℚ) / 2, 0, true⟩ : UtilInfo).utility_ratio = 1 / 2 from rfl, adjUtil_c6]

/-- C6: in mode `FDIP_ADJUSTABLE_FTQ = 1`, a recovery with the adjust flag
set moves the depth bound by `round(depth * |utility_ratio - 0.70|)` in
the direction of the comparison with 0.70 (unchanged at equality), clamped
to the configured bounds; in particular depth 16 at utility ratio 0.50
becomes 13. -/
theorem C6_adaptive_depth_utility (cfg : Config) (ri : RecoveryInfo) (s s' : DFEState)
    (h : recover cfg ri s = some s') (hm : cfg.FDIP_ADJUSTABLE_FTQ = 1)
    (ha : s.util.adjust = true)
    (h1 : cfg.UFTQ_MIN_FTQ_BLOCK_NUM ≤ s.ftq_ft_num)
    (h2 : s.ftq_ft_num ≤ cfg.UFTQ_MAX_FTQ_BLOCK_NUM) :
    s'.ftq_ft_num =
      max cfg.UFTQ_MIN_FTQ_BLOCK_NUM (min cfg.UFTQ_MAX_FTQ_BLOCK_NUM
        (if 7 / 10 < s.util.utility_ratio then
          s.ftq_ft_num + roundHalfUp (s.ftq_ft_num * (s.util.utility_ratio - 7 / 10))
        else if s.util.utility_ratio < 7 / 10 then
          s.ftq_ft_num - roundHalfUp (s.ftq_ft_num * (7 / 10 - s.util.utility_ratio))
        else s.ftq_ft_num)) ∧
    (recover cfg6 riC3 s6).map (fun t => t.ftq_ft_num) = some 13 := by
  constructor
  · unfold recover at h
    split at h
    · injection h with h
      subst h
      show (adjustFTQDepth cfg s.ftq_ft_num s.util).1 = _
      rw [adjustFTQDepth, if_pos ⟨by rw [hm]; exact one_ne_zero, ha⟩, if_pos hm]
      exact adjUtil_eq_clamp cfg s.ftq_ft_num s.util.utility_ratio h1 h2
    · exact Option.noConfusion h
  · unfold recover
    rw [if_pos (by decide : s6.redirect_cycle < s6.cycle_count)]
    dsimp only [Option.map_some']
    show some (adjustFTQDepth cfg6 s6.ftq_ft_num s6.util).1 = some 13
    rw [adjustFTQDepth_c6]

/-- C6 (witness): the utility-only adjustment at depth 16 and utility
ratio 0.50, yielding 13. -/
theorem C6_adaptive_depth_utility_witness :
    recover cfg6 riC3 s6 = some s6' ∧ cfg6.FDIP_ADJUSTABLE_FTQ = 1 ∧
    s6.util.adjust = true ∧ cfg6.UFTQ_MIN_FTQ_BLOCK_NUM ≤ s6.ftq_ft_num ∧
    s6.ftq_ft_num ≤ cfg6.UFTQ_MAX_FTQ_BLOCK_NUM ∧ s6'.ftq_ft_num = 13 ∧
    s6'.ftq_ft_num =
      max cfg6.UFTQ_MIN_FTQ_BLOCK_NUM (min cfg6.UFTQ_MAX_FTQ_BLOCK_NUM
        (if 7 / 10 < s6.util.utility_ratio then
          s6.ftq_ft_num + roundHalfUp (s6.ftq_ft_num * (s6.util.utility_ratio - 7 / 10))
        else if s6.util.utility_ratio < 7 / 10 then
          s6.ftq_ft_num - roundHalfUp (s6.ftq_ft_num * (7 / 10 - s6.util.utility_ratio))
        else s6.ftq_ft_num)) := by
  have hrec : recover cfg6 riC3 s6 = some s6' :=
    option_eq_some_getD _ _ (by unfold recover; rw [if_pos (by decide : s6.redirect_cycle < s6.cycle_count)]; rfl)
  have hc := C6_adaptive_depth_utility cfg6 riC3 s6 s6' hrec rfl rfl (by decide) (by decide)
  have h13 : s6'.ftq_ft_num = 13 := by
    have := hc.2
    rw [hrec] at this
    injection this
  exact ⟨hrec, rfl, rfl, by decide, by decide, h13, hc.1⟩

/-! ## Claim C7: clearing the adjust flag -/

theorem adjCombined_c7 : adjCombined cfg7 100 (7 / 10) (77 / 100) = 200 := by
  unfold adjCombined roundAway
  rw [if_neg (lt_irrefl _), if_neg (lt_irrefl _), if_neg (lt_irrefl _), if_neg (lt_irrefl _)]
  dsimp only
  have hp : (-2.3 * (100 : Nat) - 31.2 * (100 : Nat) + 0.007 * ((100 : Nat) * (100 : Nat))
      + 0.1 * ((100 : Nat) * (100 : Nat)) + 0.3 * ((100 : Nat) * (100 : Nat)) : ℚ) = 720 := by
    push_cast
    norm_num
  rw [hp]
  rw [if_neg (by norm_num : ¬ (720 : ℚ) < 0)]
  have hfl : (⌊(720 : ℚ) + 1 / 2⌋ : ℤ) = 720 := by
    norm_num
  rw [hfl]
  norm_num [cfg7, cfg0]

theorem adjustFTQDepth_c7 :
    adjustFTQDepth cfg7 s7.ftq_ft_num s7.util = (200, true) := by
  show adjustFTQDepth cfg7 100 ⟨7 / 10, 77 / 100, true⟩ = (200, true)
  unfold adjustFTQDepth
  rw [if_pos ⟨by decide, rfl⟩, if_neg (by decide : ¬ cfg7.FDIP_ADJUSTABLE_FTQ = 1),
    if_neg (by decide : ¬ cfg7.FDIP_ADJUSTABLE_FTQ = 2),
    if_pos (by decide : cfg7.FDIP_ADJUSTABLE_FTQ = 3)]
  rw [show (⟨(7 : ℚ) / 10, 77 / 100, true⟩ : UtilInfo).utility_ratio = 7 / 10 from rfl,
    show (⟨(7 : ℚ) / 10, 77 / 100, true⟩ : UtilInfo).timeliness_ratio = 77 / 100 from rfl,
    adjCombined_c7]

/-- C7: the code contradicts the claim in mode 3.  At a concrete recovery
with `FDIP_ADJUSTABLE_FTQ = 3` and the adjust flag set, the combined-mode
adjustment runs (the depth bound moves to the clamp, 200) yet the
prefetcher adjust flag is still set afterwards, while modes 1 and 2 do
clear it. -/
theorem C7_mode3_adjust_not_cleared :
    cfg7.FDIP_ADJUSTABLE_FTQ = 3 ∧ s7.util.adjust = true ∧
    adjustFTQDepth cfg7 s7.ftq_ft_num s7.util = (200, true) ∧
    (recover cfg7 riC3 s7).map (fun t => (t.util.adjust, t.ftq_ft_num)) =
      some (true, 200) ∧
    (adjustFTQDepth { cfg7 with FDIP_ADJUSTABLE_FTQ := 1 } s7.ftq_ft_num s7.util).2 = false ∧
    (adjustFTQDepth { cfg7 with FDIP_ADJUSTABLE_FTQ := 2 } s7.ftq_ft_num s7.util).2 = false := by
  refine ⟨rfl, rfl, adjustFTQDepth_c7, ?_, ?_, ?_⟩
  · unfold recover
    rw [if_pos (by decide : s7.redirect_cycle < s7.cycle_count)]
    dsimp only [Option.map_some']
    show some ((adjustFTQDepth cfg7 s7.ftq_ft_num s7.util).2,
      (adjustFTQDepth cfg7 s7.ftq_ft_num s7.util).1) = some (true, 200)
    rw [adjustFTQDepth_c7]
  · decide
  · decide

/-! ## Claim C9: recovery after recovery -/

/-- Outside mode 3, running the adaptive-depth block again on its own
output changes nothing (modes 1 and 2 cleared the adjust flag; other
modes never move the depth). -/
theorem adjustFTQDepth_second (cfg : Config) (h3 : cfg.FDIP_ADJUSTABLE_FTQ ≠ 3)
    (num : Nat) (info : UtilInfo) :
    adjustFTQDepth cfg (adjustFTQDepth cfg num info).1
      { info with adjust := (adjustFTQDepth cfg num info).2 } =
    adjustFTQDepth cfg num info := by
  by_cases hA : cfg.FDIP_ADJUSTABLE_FTQ ≠ 0 ∧ info.adjust
  · by_cases h1 : cfg.FDIP_ADJUSTABLE_FTQ = 1
    · have hv : adjustFTQDepth cfg num info = (adjUtil cfg num info.utility_ratio, false) := by
        unfold adjustFTQDepth
        rw [if_pos hA, if_pos h1]
      rw [hv]
      unfold adjustFTQDepth
      rw [if_neg (fun hc => Bool.false_ne_true hc.2)]
    · by_cases h2 : cfg.FDIP_ADJUSTABLE_FTQ = 2
      · have hv : adjustFTQDepth cfg num info =
            (adjTime cfg num info.timeliness_ratio, false) := by
          unfold adjustFTQDepth
          rw [if_pos hA, if_neg h1, if_pos h2]
        rw [hv]
        unfold adjustFTQDepth
        rw [if_neg (fun hc => Bool.false_ne_true hc.2)]
      · have hv : adjustFTQDepth cfg num info = (num, info.adjust) := by
          unfold adjustFTQDepth
          rw [if_pos hA, if_neg h1, if_neg h2, if_neg h3]
        rw [hv]
        unfold adjustFTQDepth
        rw [if_pos ⟨hA.1, hA.2⟩, if_neg h1, if_neg h2, if_neg h3]
  · have hv : adjustFTQDepth cfg num info = (num, info.adjust) := by
      unfold adjustFTQDepth
      rw [if_neg hA]
    rw [hv]
    unfold adjustFTQDepth
    rw [if_neg (fun hc => hA ⟨hc.1, hc.2⟩)]

/-- C9 (counterexample): two immediately consecutive recoveries at the
same recovery info are not a no-op on the emitted statistics: the second
one increments the recovery-kind stat again and adds the whole current
cycle count to `FTQ_OFFPATH_CYCLES` (the redirect cycle was zeroed by the
first recovery). -/
theorem C9_counterexample :
    recover cfg0 riC3 s9 = some s9a ∧ recover cfg0 riC3 s9a = some s9b ∧
    s9a.stats.offpath_cycles = 2 ∧ s9b.stats.offpath_cycles = 7 ∧
    s9a.stats.recover_exec = 1 ∧ s9b.stats.recover_exec = 2 ∧
    s9b.stats ≠ s9a.stats := by decide

/-- C9 (amended): a second recovery immediately after a first one (no
intervening producer tick) leaves the FTQ, builder, in-use FT, op counter,
iterators, stall flag, pending recovery address, freed-op log, and
redirect bookkeeping exactly as after the first recovery, in every mode;
outside combined mode 3 the depth bound and utility info are also
preserved.  But it is not a no-op on the statistics: it re-emits the
recovery-kind stat event and adds the full current cycle count to the
off-path-cycles stat. -/
theorem C9_recovery_idempotence_amended (cfg : Config) (ri : RecoveryInfo)
    (s s1 s2 : DFEState)
    (h1 : recover cfg ri s = some s1) (h2 : recover cfg ri s1 = some s2) :
    s2.ftq = s1.ftq ∧ s2.ft_to_push = s1.ft_to_push ∧ s2.ft_in_use = s1.ft_in_use ∧
    s2.op_count = s1.op_count ∧ s2.iters = s1.iters ∧
    s2.stalled = s1.stalled ∧ s2.recovery_addr = s1.recovery_addr ∧
    s2.off_path = s1.off_path ∧ s2.redirect_cycle = s1.redirect_cycle ∧
    s2.fe_next = s1.fe_next ∧ s2.freed = s1.freed ∧ s2.cycle_count = s1.cycle_count ∧
    s2.stats.offpath_cycles = s1.stats.offpath_cycles + s1.cycle_count ∧
    s2.stats.recover_decode = s1.stats.recover_decode +
      (if ri.recover_at_decode then 1 else 0) ∧
    s2.stats.recover_exec = s1.stats.recover_exec +
      (if ¬ ri.recover_at_decode ∧ ri.recover_at_exec then 1 else 0) ∧
    (cfg.FDIP_ADJUSTABLE_FTQ ≠ 3 →
      s2.ftq_ft_num = s1.ftq_ft_num ∧ s2.util = s1.util) := by
  unfold recover at h1 h2
  split at h1
  · injection h1 with h1
    subst h1
    split at h2
    · injection h2 with h2
      subst h2
      refine ⟨rfl, rfl, rfl, rfl, ?_, rfl, rfl, rfl, rfl, rfl, ?_, rfl, ?_, rfl, rfl, ?_⟩
      · show List.map (fun _ => Iter.zero) (List.map (fun _ => Iter.zero) s.iters) =
          List.map (fun _ => Iter.zero) s.iters
        rw [List.map_map]
        rfl
      · show _ ++ (([] : List (List Op)).flatten ++ residual FT.init ++ residual FT.init) = _
        simp [residual, FT.init]
      · show _ + (s.cycle_count - 0) = _ + s.cycle_count
        rw [Nat.sub_zero]
      · intro h3
        have hsecond := adjustFTQDepth_second cfg h3 s.ftq_ft_num s.util
        exact ⟨congrArg Prod.fst hsecond,
          congrArg (fun y => { s.util with adjust := y.2 }) hsecond⟩
    · exact Option.noConfusion h2
  · exact Option.noConfusion h1

/-- C9 (witness): the amended statement at the concrete double-recovery
scenario. -/
theorem C9_recovery_idempotence_amended_witness :
    (recover cfg0 riC3 s9 = some s9a ∧ recover cfg0 riC3 s9a = some s9b) ∧
    (s9b.ftq = s9a.ftq ∧ s9b.ft_to_push = s9a.ft_to_push ∧ s9b.ft_in_use = s9a.ft_in_use ∧
      s9b.op_count = s9a.op_count ∧ s9b.iters = s9a.iters ∧
      s9b.stalled = s9a.stalled ∧ s9b.recovery_addr = s9a.recovery_addr ∧
      s9b.off_path = s9a.off_path ∧ s9b.redirect_cycle = s9a.redirect_cycle ∧
      s9b.fe_next = s9a.fe_next ∧ s9b.freed = s9a.freed ∧
      s9b.cycle_count = s9a.cycle_count ∧
      s9b.stats.offpath_cycles = s9a.stats.offpath_cycles + s9a.cycle_count ∧
      s9b.stats.recover_decode = s9a.stats.recover_decode +
        (if riC3.recover_at_decode then 1 else 0) ∧
      s9b.stats.recover_exec = s9a.stats.recover_exec +
        (if ¬ riC3.recover_at_decode ∧ riC3.recover_at_exec then 1 else 0) ∧
      (cfg0.FDIP_ADJUSTABLE_FTQ ≠ 3 →
        s9b.ftq_ft_num = s9a.ftq_ft_num ∧ s9b.util = s9a.util)) :=
  ⟨⟨by decide, by decide⟩,
    C9_recovery_idempotence_amended cfg0 riC3 s9 s9a s9b (by decide) (by decide)⟩

/-! ## Claim C8: fetch_op / return_op round trip -/

theorem ft_fetch_op_inv {ft : FT} {op : Op} {eof : Bool} {ft' : FT}
    (h : ft_fetch_op ft = some (op, eof, ft')) :
    ft.ops.get? ft.op_pos = some op ∧ ft' = { ft with op_pos := ft.op_pos + 1 } := by
  unfold ft_fetch_op at h
  split at h
  next => exact Option.noConfusion h
  next op0 hget =>
    injection h with h
    injection h with h1 h
    injection h with h2 h3
    subst h1
    exact ⟨hget, h3.symm⟩

theorem ft_return_op_inv {ft : FT} {op : Op} {ft' : FT}
    (h : ft_return_op ft op = some ft') :
    ft.op_pos ≠ 0 ∧ ft.ops.get? (ft.op_pos - 1) = some op ∧
      ft' = { ft with op_pos := ft.op_pos - 1 } := by
  unfold ft_return_op at h
  split at h
  next hc =>
    injection h with h
    exact ⟨hc.1, hc.2, h.symm⟩
  next => exact Option.noConfusion h

/-- Inversion of a successful op delivery: either it was served from the
in-use FT, or the in-use FT was exhausted and the FTQ head was popped
first. -/
theorem fetch_op_inv {cfg : Config} {s : DFEState} {x : Op} {eof : Bool} {s1 : DFEState}
    (hf : decoupled_fe_fetch_op cfg s = some (some (x, eof), s1)) :
    (s.ft_in_use.ft_can_fetch_op = true ∧
      s.ft_in_use.ops.get? s.ft_in_use.op_pos = some x ∧
      s1 = { s with ft_in_use := { s.ft_in_use with op_pos := s.ft_in_use.op_pos + 1 } }) ∨
    (s.ft_in_use.ft_can_fetch_op = false ∧ ∃ ft rest iters',
      s.ftq = ft :: rest ∧ rebaseAll cfg ft.ops.length s.iters = some iters' ∧
      ft.ops.get? ft.op_pos = some x ∧
      s1 = { s with
               ftq := rest, iters := iters',
               ft_in_use := { ft with op_pos := ft.op_pos + 1 } }) := by
  unfold decoupled_fe_fetch_op at hf
  by_cases hcan : s.ft_in_use.ft_can_fetch_op = true
  · rw [if_pos hcan] at hf
    cases hfo : ft_fetch_op s.ft_in_use with
    | none => rw [hfo] at hf; exact Option.noConfusion hf
    | some trip =>
      obtain ⟨op, eof2, ft2⟩ := trip
      rw [hfo] at hf
      injection hf with hf
      injection hf with hf1 hf2
      injection hf1 with hf1
      injection hf1 with hfx hfe
      subst hfx
      obtain ⟨hget, rfl⟩ := ft_fetch_op_inv hfo
      exact Or.inl ⟨hcan, hget, hf2.symm⟩
  · rw [if_neg hcan] at hf
    by_cases hemp : s.ftq.isEmpty = true
    · rw [if_pos hemp] at hf
      injection hf with hf
      injection hf with hf1 hf2
      exact Option.noConfusion hf1
    · rw [if_neg hemp] at hf
      cases hff : decoupled_fe_fetch_ft cfg s with
      | none => rw [hff] at hf; exact Option.noConfusion hf
      | some trip =>
        obtain ⟨a, b, sp⟩ := trip
        rw [hff] at hf
        dsimp only at hf
        cases hfo : ft_fetch_op sp.ft_in_use with
        | none => rw [hfo] at hf; exact Option.noConfusion hf
        | some trip2 =>
          obtain ⟨op, eof2, ft2⟩ := trip2
          rw [hfo] at hf
          dsimp only at hf
          injection hf with hf
          injection hf with hf1 hf2
          injection hf1 with hf1
          injection hf1 with hfx hfe
          subst hfx
          obtain ⟨hget, rfl⟩ := ft_fetch_op_inv hfo
          unfold decoupled_fe_fetch_ft at hff
          cases hq : s.ftq with
          | nil =>
            rw [hq] at hemp
            exact absurd rfl hemp
          | cons ft rest =>
            rw [hq] at hff
            dsimp only at hff
            cases hrb : rebaseAll cfg ft.ops.length s.iters with
            | none => rw [hrb] at hff; exact Option.noConfusion hff
            | some iters' =>
              rw [hrb] at hff
              injection hff with hff
              injection hff with hff1 hff
              injection hff with hff2 hff3
              subst hff3
              refine Or.inr ⟨eq_false_of_ne_true hcan, ft, rest, iters', rfl, hrb, hget,
                hf2.symm⟩

/-- C8 (counterexample): when the fetch pops a fresh FT from the FTQ, the
immediately following `return_op` leaves the read cursor at 0 on the newly
popped FT, not at the pre-fetch value 1 of the exhausted in-use FT, so the
pair (in-use cursor, `can_fetch_op()`) is not restored exactly as the claim
states. -/
theorem C8_counterexample :
    decoupled_fe_fetch_op cfg0 sC8 = some (some (opB1, true), sC8a) ∧
    decoupled_fe_return_op opB1 sC8a = some sC8b ∧
    sC8.ft_in_use.op_pos = 1 ∧ sC8b.ft_in_use.op_pos = 0 ∧
    sC8b.ft_in_use.op_pos ≠ sC8.ft_in_use.op_pos := by decide

/-- C8 (amended): a successful `fetch_op` followed by returning the same op
moves the cursor back by one onto the op just delivered (which must be
identity-equal to the argument) and restores the value of
`can_fetch_op()`; when the fetch was served from the current in-use FT the
whole state is restored exactly, while a fetch that popped the FTQ head
leaves the popped FT installed with its cursor back at its stored value
and the FTQ tail remaining. -/
theorem C8_fetch_return_roundtrip_amended (cfg : Config) (s : DFEState) (x : Op)
    (eof : Bool) (s1 s2 : DFEState)
    (hf : decoupled_fe_fetch_op cfg s = some (some (x, eof), s1))
    (hr : decoupled_fe_return_op x s1 = some s2) :
    s2.ft_in_use.op_pos + 1 = s1.ft_in_use.op_pos ∧
    s1.ft_in_use.ops.get? s2.ft_in_use.op_pos = some x ∧
    decoupled_fe_can_fetch_op s2 = decoupled_fe_can_fetch_op s ∧
    (s.ft_in_use.ft_can_fetch_op = true → s2 = s) ∧
    (s.ft_in_use.ft_can_fetch_op = false →
      s.ftq ≠ [] ∧ s2.ft_in_use = s.ftq.head?.getD FT.init ∧ s2.ftq = s.ftq.tail) := by
  unfold decoupled_fe_return_op at hr
  cases hret : ft_return_op s1.ft_in_use x with
  | none => rw [hret] at hr; exact Option.noConfusion hr
  | some ftr =>
    rw [hret] at hr
    injection hr with hr
    subst hr
    obtain ⟨hnz, hget, rfl⟩ := ft_return_op_inv hret
    rcases fetch_op_inv hf with ⟨hcan, hgetf, rfl⟩ | ⟨hcan, ft, rest, iters', hq, hrb, hgetf, rfl⟩
    · have hs2 : ({ s with ft_in_use := { s.ft_in_use with
          op_pos := s.ft_in_use.op_pos + 1 - 1 } } : DFEState) = s := by
        have hiu : ({ s.ft_in_use with op_pos := s.ft_in_use.op_pos + 1 - 1 } : FT) =
            s.ft_in_use := by
          rw [Nat.add_sub_cancel]
        rw [hiu]
      refine ⟨by simp, hget, by rw [hs2], fun _ => hs2, fun hfalse => ?_⟩
      rw [hcan] at hfalse
      exact Bool.noConfusion hfalse
    · have hiu : ({ ft with op_pos := ft.op_pos + 1 - 1 } : FT) = ft := by
        rw [Nat.add_sub_cancel]
      obtain ⟨hlt, _⟩ := List.get?_eq_some.mp hgetf
      have hcanft : ft.ft_can_fetch_op = true := by
        simp only [FT.ft_can_fetch_op, decide_eq_true_eq]
        exact hlt
      have h2can : decoupled_fe_can_fetch_op
          { s with
            ftq := rest, iters := iters',
            ft_in_use := { ft with op_pos := ft.op_pos + 1 - 1 } } = true := by
        unfold decoupled_fe_can_fetch_op
        rw [hiu]
        simp [hcanft]
      have hscan : decoupled_fe_can_fetch_op s = true := by
        unfold decoupled_fe_can_fetch_op decoupled_fe_can_fetch_ft
        rw [hq]
        simp
      refine ⟨by simp, hget, by rw [h2can, hscan], fun htrue => ?_, fun _ => ?_⟩
      · rw [hcan] at htrue
        exact absurd htrue Bool.false_ne_true
      · refine ⟨by rw [hq]; exact List.cons_ne_nil ft rest, ?_, by rw [hq]; rfl⟩
        show ({ ft with op_pos := ft.op_pos + 1 - 1 } : FT) = _
        rw [hiu, hq]
        rfl
/-- C8 (witness): the amended round trip at a concrete no-pop fetch. -/
theorem C8_fetch_return_roundtrip_amended_witness :
    (decoupled_fe_fetch_op cfg0 sC8w = some (some (opA1, false), sC8wa) ∧
      decoupled_fe_return_op opA1 sC8wa = some sC8wb) ∧
    (sC8wb.ft_in_use.op_pos + 1 = sC8wa.ft_in_use.op_pos ∧
      sC8wa.ft_in_use.ops.get? sC8wb.ft_in_use.op_pos = some opA1 ∧
      decoupled_fe_can_fetch_op sC8wb = decoupled_fe_can_fetch_op sC8w ∧
      (sC8w.ft_in_use.ft_can_fetch_op = true → sC8wb = sC8w) ∧
      (sC8w.ft_in_use.ft_can_fetch_op = false →
        sC8w.ftq ≠ [] ∧ sC8wb.ft_in_use = sC8w.ftq.head?.getD FT.init ∧
        sC8wb.ftq = sC8w.ftq.tail)) :=
  ⟨⟨by decide, by decide⟩,
    C8_fetch_return_roundtrip_amended cfg0 sC8w opA1 false sC8wa sC8wb
      (by decide) (by decide)⟩

/-! ## Claim C1: iterator rebase on consumer pop -/

/-- Pointwise reading of a successful `rebaseAll`. -/
theorem rebaseAll_get {cfg : Config} {k : Nat} :
    ∀ {l l' : List Iter}, rebaseAll cfg k l = some l' →
      l'.length = l.length ∧
      ∀ i (hi : i < l.length) (hi' : i < l'.length),
        rebase_iter cfg k (l.get ⟨i, hi⟩) = some (l'.get ⟨i, hi'⟩) := by
  intro l
  induction l with
  | nil =>
    intro l' h
    unfold rebaseAll at h
    injection h with h
    subst h
    exact ⟨rfl, fun i hi => absurd hi (Nat.not_lt_zero i)⟩
  | cons it rest ih =>
    intro l' h
    unfold rebaseAll at h
    cases hit : rebase_iter cfg k it with
    | none => rw [hit] at h; exact Option.noConfusion h
    | some it' =>
      rw [hit] at h
      cases hrest : rebaseAll cfg k rest with
      | none => rw [hrest] at h; exact Option.noConfusion h
      | some rest' =>
        rw [hrest] at h
        injection h with h
        subst h
        obtain ⟨hlen, hpt⟩ := ih hrest
        refine ⟨by simp [hlen], ?_⟩
        intro i hi hi'
        cases i with
        | zero => exact hit
        | succ n =>
          exact hpt n (Nat.lt_of_succ_lt_succ hi) (Nat.lt_of_succ_lt_succ hi')

/-- Inversion of the per-iterator rebase. -/
theorem rebase_iter_inv {cfg : Config} {k : Nat} {it it' : Iter}
    (h : rebase_iter cfg k it = some it') :
    (0 < it.ft_pos → k ≤ it.flattened_op_pos ∧
      it' = ⟨it.ft_pos - 1, it.op_pos, it.flattened_op_pos - k⟩) ∧
    (it.ft_pos = 0 → it.flattened_op_pos < k ∧ it' = ⟨0, 0, 0⟩) := by
  unfold rebase_iter at h
  split at h
  · exact Option.noConfusion h
  · split at h
    next hpos =>
      split at h
      next hk =>
        injection h with h
        subst h
        constructor
        · intro _
          exact ⟨hk, rfl⟩
        · intro h0
          rw [h0] at hpos
          exact absurd hpos (lt_irrefl 0)
      next => exact Option.noConfusion h
    next hpos =>
      split at h
      next hk =>
        injection h with h
        subst h
        constructor
        · intro hgt
          exact absurd hgt hpos
        · intro h0
          refine ⟨hk, ?_⟩
          show Iter.mk it.ft_pos 0 0 = ⟨0, 0, 0⟩
          rw [h0]
      next => exact Option.noConfusion h

/-- C1 (counterexample): an iterator standing inside the FT being popped
(`ft_pos = 0`, here at `flattened_op_pos = 1`) is reset to zero by the
pop, and the op identity at its new flattened position (the first op of
the next FT, op 3) differs from the op identity at its old flattened
position before the pop (op 2): stability fails for such iterators. -/
theorem C1_counterexample :
    decoupled_fe_fetch_ft cfg0 sC1 = some (4096, 8, sC1') ∧
    sC1.iters = [⟨0, 1, 1⟩] ∧ sC1'.iters = [⟨0, 0, 0⟩] ∧
    opIdentAt sC1 1 = some opA2 ∧ opIdentAt sC1' 0 = some opB1 ∧
    opA2 ≠ opB1 := by decide

/-- C1 (amended): on a consumer pop of the head FT, iterators with
`ft_pos > 0` are rebased (`ft_pos` down by one, `flattened_op_pos` down by
the popped FT's op count) and the op identity at their flattened position
is preserved; iterators with `ft_pos = 0` (standing on the popped FT) are
instead reset to `(op_pos, flattened_op_pos) = (0, 0)`, with no identity
preservation. -/
theorem C1_iter_rebase_amended (cfg : Config) (s : DFEState) (a b : Nat)
    (s' : DFEState) (h : decoupled_fe_fetch_ft cfg s = some (a, b, s')) :
    s'.iters.length = s.iters.length ∧
    ∀ i (hi : i < s.iters.length) (hi' : i < s'.iters.length),
      (0 < (s.iters.get ⟨i, hi⟩).ft_pos →
        s'.iters.get ⟨i, hi'⟩ =
          ⟨(s.iters.get ⟨i, hi⟩).ft_pos - 1, (s.iters.get ⟨i, hi⟩).op_pos,
            (s.iters.get ⟨i, hi⟩).flattened_op_pos - s'.ft_in_use.ops.length⟩ ∧
        s'.ft_in_use.ops.length ≤ (s.iters.get ⟨i, hi⟩).flattened_op_pos ∧
        opIdentAt s'
            ((s.iters.get ⟨i, hi⟩).flattened_op_pos - s'.ft_in_use.ops.length) =
          opIdentAt s (s.iters.get ⟨i, hi⟩).flattened_op_pos) ∧
      ((s.iters.get ⟨i, hi⟩).ft_pos = 0 → s'.iters.get ⟨i, hi'⟩ = ⟨0, 0, 0⟩) := by
  unfold decoupled_fe_fetch_ft at h
  cases hq : s.ftq with
  | nil => rw [hq] at h; exact Option.noConfusion h
  | cons ft rest =>
    rw [hq] at h
    dsimp only at h
    cases hrb : rebaseAll cfg ft.ops.length s.iters with
    | none => rw [hrb] at h; exact Option.noConfusion h
    | some iters' =>
      rw [hrb] at h
      injection h with h
      injection h with h1 h
      injection h with h2 h3
      subst h3
      obtain ⟨hlen, hpt⟩ := rebaseAll_get hrb
      refine ⟨hlen, ?_⟩
      intro i hi hi'
      have hreb := rebase_iter_inv (hpt i hi hi')
      constructor
      · intro hpos
        obtain ⟨hk, heq⟩ := hreb.1 hpos
        refine ⟨heq, hk, ?_⟩
        unfold opIdentAt
        dsimp only
        rw [hq]
        have hflat : flattenFTQ (ft :: rest) = ft.ops ++ flattenFTQ rest := by
          simp [flattenFTQ]
        rw [hflat, List.get?_append_right hk]
      · intro hzero
        exact (hreb.2 hzero).2
/-! ## Reachable-state invariant: helper lemmas -/

/-- Inversion of a successful `decoupled_fe_fetch_ft`. -/
theorem fetch_ft_inv {cfg : Config} {s : DFEState} {a b : Nat} {s' : DFEState}
    (h : decoupled_fe_fetch_ft cfg s = some (a, b, s')) :
    ∃ ft rest iters', s.ftq = ft :: rest ∧
      rebaseAll cfg ft.ops.length s.iters = some iters' ∧ a = ft.start ∧ b = ft.length ∧
      s' = { s with ftq := rest, ft_in_use := ft, iters := iters' } := by
  unfold decoupled_fe_fetch_ft at h
  cases hq : s.ftq with
  | nil => rw [hq] at h; exact Option.noConfusion h
  | cons ft rest =>
    rw [hq] at h
    dsimp only at h
    cases hrb : rebaseAll cfg ft.ops.length s.iters with
    | none => rw [hrb] at h; exact Option.noConfusion h
    | some iters' =>
      rw [hrb] at h
      injection h with h
      injection h with h1 h
      injection h with h2 h3
      exact ⟨ft, rest, iters', rfl, hrb, h1.symm, h2.symm, h3.symm⟩

theorem sumOps_take_succ {q : List FT} {n : Nat} {ft : FT} (h : q.get? n = some ft) :
    sumOps (q.take (n + 1)) = sumOps (q.take n) + ft.ops.length := by
  have h2 : q[n]? = some ft := by
    rw [← List.get?_eq_getElem?]
    exact h
  rw [List.take_succ, h2]
  simp [sumOps]

/-- A registered-iterator invariant survives appending a non-empty FT to
the back of the FTQ. -/
theorem iterWF_append {q : List FT} {ft : FT} {it : Iter}
    (hwf : iterWF q it) (hne : ft.ops ≠ []) : iterWF (q ++ [ft]) it := by
  obtain ⟨hle, hpark, hbound, hflat⟩ := hwf
  refine ⟨le_trans hle (by simp), ?_, ?_, ?_⟩
  · intro hp
    rw [List.length_append, List.length_singleton] at hp
    omega
  · rcases lt_or_eq_of_le hle with hlt | heq
    · intro g hg
      rw [List.get?_append hlt] at hg
      exact hbound g hg
    · intro g hg
      rw [heq, List.get?_concat_length] at hg
      injection hg with hg
      subst hg
      rw [hpark heq]
      exact List.length_pos.mpr hne
  · rw [List.take_append_of_le_length hle]
    exact hflat

/-- The pop-time rebase takes an iterator valid over `ft :: rest` to an
iterator valid over `rest` (all FTs of `rest` being non-empty). -/
theorem rebase_iter_wf {cfg : Config} {ft : FT} {rest : List FT} {it it' : Iter}
    (hne : ∀ g ∈ rest, g.ops ≠ [])
    (hwf : iterWF (ft :: rest) it)
    (h : rebase_iter cfg ft.ops.length it = some it') : iterWF rest it' := by
  obtain ⟨hle, hpark, hbound, hflat⟩ := hwf
  have hinv := rebase_iter_inv h
  by_cases hpos : 0 < it.ft_pos
  · obtain ⟨hk2, rfl⟩ := hinv.1 hpos
    have hlen : it.ft_pos ≤ rest.length + 1 := by
      rw [← List.length_cons ft rest]
      exact hle
    have hft : it.ft_pos = (it.ft_pos - 1) + 1 := by omega
    have hflat2 : it.flattened_op_pos =
        ft.ops.length + (sumOps (rest.take (it.ft_pos - 1)) + it.op_pos) := by
      rw [hflat, hft, List.take_succ_cons]
      simp [sumOps, Nat.add_assoc]
    unfold iterWF
    dsimp only
    refine ⟨by omega, ?_, ?_, ?_⟩
    · intro hp
      apply hpark
      rw [List.length_cons]
      omega
    · intro g hg
      apply hbound
      rw [hft, List.get?_cons_succ]
      exact hg
    · omega
  · have h0 : it.ft_pos = 0 := Nat.eq_zero_of_not_pos hpos
    obtain ⟨hklt, rfl⟩ := hinv.2 h0
    refine ⟨Nat.zero_le _, fun _ => rfl, ?_, by simp [sumOps]⟩
    intro g hg
    exact List.length_pos.mpr (hne g (List.get?_mem hg))

/-- `rebaseAll` takes a set of valid iterators over `ft :: rest` to a set
of valid iterators over `rest`. -/
theorem rebaseAll_wf {cfg : Config} {ft : FT} {rest : List FT} {l l' : List Iter}
    (hne : ∀ g ∈ rest, g.ops ≠ [])
    (hwf : ∀ it ∈ l, iterWF (ft :: rest) it)
    (h : rebaseAll cfg ft.ops.length l = some l') :
    ∀ it' ∈ l', iterWF rest it' := by
  intro it' hmem
  obtain ⟨⟨i, hi'⟩, rfl⟩ := List.mem_iff_get.mp hmem
  obtain ⟨hlen, hpt⟩ := rebaseAll_get h
  have hi2 : i < l.length := by rw [← hlen]; exact hi'
  exact rebase_iter_wf hne (hwf _ (List.get_mem l i hi2)) (hpt i hi2 hi')

/-- Advancing an iterator (`decoupled_fe_ftq_iter_get_next`) preserves the
iterator invariant (all FTs of the FTQ being non-empty). -/
theorem iter_get_next_wf {s : DFEState} {it it' : Iter} {r : Option (Op × Bool)}
    (hne : ∀ g ∈ s.ftq, g.ops ≠ [])
    (hwf : iterWF s.ftq it)
    (h : decoupled_fe_ftq_iter_get_next s it = some (it', r)) : iterWF s.ftq it' := by
  obtain ⟨hle, hpark, hbound, hflat⟩ := hwf
  unfold decoupled_fe_ftq_iter_get_next at h
  split at h
  next hc =>
    rw [Bool.and_eq_true, beq_iff_eq] at hc
    obtain ⟨hlen1, hany⟩ := hc
    injection h with h
    injection h with h1 h2
    subst h1
    cases hget : s.ftq.get? it.ft_pos with
    | none => rw [hget] at hany; exact Bool.noConfusion hany
    | some ft =>
      rw [hget] at hany
      simp only [Option.any_some, beq_iff_eq] at hany
      unfold iterWF
      dsimp only
      refine ⟨by omega, fun _ => rfl, ?_, ?_⟩
      · intro g hg
        rw [List.get?_len_le (by omega)] at hg
        exact Option.noConfusion hg
      · rw [sumOps_take_succ hget]
        omega
  next hc =>
    split at h
    next hz =>
      split at h
      next hz2 =>
        injection h with h
        injection h with h1 h2
        subst h1
        exact ⟨hle, hpark, hbound, hflat⟩
      next => exact Option.noConfusion h
    next hpos =>
      cases hget : s.ftq.get? it.ft_pos with
      | none => rw [hget] at h; exact Option.noConfusion h
      | some ft =>
        rw [hget] at h
        dsimp only at h
        have hlt : it.ft_pos < s.ftq.length := by
          rcases lt_or_eq_of_le hle with hlt | heq
          · exact hlt
          · rw [heq, List.get?_len_le (le_refl _)] at hget
            exact Option.noConfusion hget
        have hoplt : it.op_pos < ft.ops.length := hbound ft hget
        by_cases hlast : it.op_pos + 1 = ft.ops.length
        · rw [if_pos hlast] at h
          cases hg2 : decoupled_fe_ftq_iter_get s ⟨it.ft_pos + 1, 0, it.flattened_op_pos + 1⟩ with
          | none => rw [hg2] at h; exact Option.noConfusion h
          | some rr =>
            rw [hg2] at h
            dsimp only [Option.map_some'] at h
            injection h with h
            injection h with h1 h2
            subst h1
            have hne1 : it.ft_pos + 1 ≠ s.ftq.length := by
              intro hbad
              rw [Bool.and_eq_true, beq_iff_eq] at hc
              apply hc
              refine ⟨hbad, ?_⟩
              rw [hget]
              simp only [Option.any_some, beq_iff_eq]
              exact hlast
            unfold iterWF
            dsimp only
            refine ⟨by omega, fun hbad => absurd hbad hne1, ?_, ?_⟩
            · intro g hg
              exact List.length_pos.mpr (hne g (List.get?_mem hg))
            · rw [sumOps_take_succ hget]
              omega
        · rw [if_neg hlast] at h
          cases hg2 : decoupled_fe_ftq_iter_get s
              ⟨it.ft_pos, it.op_pos + 1, it.flattened_op_pos + 1⟩ with
          | none => rw [hg2] at h; exact Option.noConfusion h
          | some rr =>
            rw [hg2] at h
            dsimp only [Option.map_some'] at h
            injection h with h
            injection h with h1 h2
            subst h1
            unfold iterWF
            dsimp only
            refine ⟨hle, ?_, ?_, ?_⟩
            · intro hbad
              exact absurd hbad (by omega)
            · intro g hg
              rw [hget] at hg
              injection hg with hg
              subst hg
              omega
            · omega
/-! ## Reachable-state invariant -/

theorem producer_step_Inv {cfg : Config} {f : Op} {p : Nat} {s s' : DFEState}
    (h : producer_step cfg f p s = some s') (hI : Inv s) : Inv s' := by
  obtain ⟨op, s1, ft', hh, he, hadd, hcase⟩ := producer_step_inv h
  obtain ⟨hops, hend, hchain⟩ := ft_add_op_inv hadd
  obtain ⟨hq, hb, hi⟩ := hI
  rcases hcase with ⟨hinit, hqeq, hbeq, hieq⟩ | ⟨hne, hs, hl, hnil, hqeq, hbeq, hieq⟩
  · refine ⟨by rw [hqeq]; exact hq, by rw [hbeq]; exact hchain hb, ?_⟩
    intro it hit
    rw [hieq] at hit
    rw [hqeq]
    exact hi it hit
  · have hendne : ft'.ended_by ≠ FT_Ended_By.INIT := by
      rw [hend (by rw [he]; exact hne), he]
      exact hne
    have hftwf : ftWF ft' := ⟨hs, hl, hnil, hendne, hchain hb⟩
    refine ⟨?_, by rw [hbeq]; exact List.chain'_nil, ?_⟩
    · intro g hg
      rw [hqeq] at hg
      rcases List.mem_append.mp hg with hg | hg
      · exact hq g hg
      · rw [List.mem_singleton] at hg
        subst hg
        exact hftwf
    · intro it hit
      rw [hieq] at hit
      rw [hqeq]
      exact iterWF_append (hi it hit) hnil

theorem fetch_ft_Inv {cfg : Config} {s : DFEState} {a b : Nat} {s' : DFEState}
    (h : decoupled_fe_fetch_ft cfg s = some (a, b, s')) (hI : Inv s) : Inv s' := by
  obtain ⟨ft, rest, iters', hq, hrb, _, _, rfl⟩ := fetch_ft_inv h
  obtain ⟨hwq, hb, hi⟩ := hI
  have hne : ∀ g ∈ rest, g.ops ≠ [] := by
    intro g hg
    exact (hwq g (by rw [hq]; exact List.mem_cons_of_mem ft hg)).2.2.1
  refine ⟨?_, hb, ?_⟩
  · intro g hg
    exact hwq g (by rw [hq]; exact List.mem_cons_of_mem ft hg)
  · intro it' hit'
    exact rebaseAll_wf hne (fun it hit => by rw [← hq]; exact hi it hit) hrb it' hit'

theorem fetch_op_Inv {cfg : Config} {s : DFEState} {r : Option (Op × Bool)}
    {s' : DFEState} (h : decoupled_fe_fetch_op cfg s = some (r, s')) (hI : Inv s) :
    Inv s' := by
  unfold decoupled_fe_fetch_op at h
  by_cases hcan : s.ft_in_use.ft_can_fetch_op = true
  · rw [if_pos hcan] at h
    cases hfo : ft_fetch_op s.ft_in_use with
    | none => rw [hfo] at h; exact Option.noConfusion h
    | some trip =>
      rw [hfo] at h
      injection h with h
      injection h with h1 h2
      subst h2
      exact ⟨hI.1, hI.2.1, hI.2.2⟩
  · rw [if_neg hcan] at h
    by_cases hemp : s.ftq.isEmpty = true
    · rw [if_pos hemp] at h
      injection h with h
      injection h with h1 h2
      subst h2
      exact hI
    · rw [if_neg hemp] at h
      cases hff : decoupled_fe_fetch_ft cfg s with
      | none => rw [hff] at h; exact Option.noConfusion h
      | some trip =>
        obtain ⟨a, b, sp⟩ := trip
        rw [hff] at h
        dsimp only at h
        have hInv2 := fetch_ft_Inv hff hI
        cases hfo : ft_fetch_op sp.ft_in_use with
        | none => rw [hfo] at h; exact Option.noConfusion h
        | some trip2 =>
          rw [hfo] at h
          dsimp only at h
          injection h with h
          injection h with h1 h2
          subst h2
          exact ⟨hInv2.1, hInv2.2.1, hInv2.2.2⟩

theorem return_op_Inv {op : Op} {s s' : DFEState}
    (h : decoupled_fe_return_op op s = some s') (hI : Inv s) : Inv s' := by
  unfold decoupled_fe_return_op at h
  cases hret : ft_return_op s.ft_in_use op with
  | none => rw [hret] at h; exact Option.noConfusion h
  | some ftr =>
    rw [hret] at h
    injection h with h
    subst h
    exact ⟨hI.1, hI.2.1, hI.2.2⟩

theorem new_iter_Inv {s : DFEState} (hI : Inv s) : Inv (decoupled_fe_new_ftq_iter s) := by
  obtain ⟨hq, hb, hi⟩ := hI
  refine ⟨hq, hb, ?_⟩
  intro it hit
  unfold decoupled_fe_new_ftq_iter at hit
  dsimp only at hit
  rcases List.mem_append.mp hit with hit | hit
  · exact hi it hit
  · rw [List.mem_singleton] at hit
    subst hit
    refine ⟨Nat.zero_le _, ?_, ?_, rfl⟩
    · intro h0
      rfl
    · intro g hg
      exact List.length_pos.mpr ((hq g (List.get?_mem hg)).2.2.1)

theorem iter_advance_Inv {s : DFEState} {it' : Iter} {r : Option (Op × Bool)}
    {i : Nat} (hi : i < s.iters.length)
    (h : decoupled_fe_ftq_iter_get_next s (s.iters.get ⟨i, hi⟩) = some (it', r))
    (hI : Inv s) : Inv { s with iters := s.iters.set i it' } := by
  obtain ⟨hq, hb, hiw⟩ := hI
  refine ⟨hq, hb, ?_⟩
  intro g hg
  dsimp only at hg
  rcases List.mem_or_eq_of_mem_set hg with hg | hg
  · exact hiw g hg
  · subst hg
    exact iter_get_next_wf (fun g hgm => (hq g hgm).2.2.1)
      (hiw _ (List.get_mem s.iters i hi)) h

theorem recover_Inv {cfg : Config} {ri : RecoveryInfo} {s s' : DFEState}
    (h : recover cfg ri s = some s') : Inv s' := by
  unfold recover at h
  split at h
  · injection h with h
    subst h
    refine ⟨?_, ?_, ?_⟩
    · intro ft hft
      exact absurd hft (List.not_mem_nil ft)
    · exact List.chain'_nil
    · intro it hit
      simp only [recoverBody, List.mem_map] at hit
      obtain ⟨_, _, rfl⟩ := hit
      exact ⟨Nat.zero_le _, fun _ => rfl, fun g hg => Option.noConfusion hg, rfl⟩
  · exact Option.noConfusion h

theorem retire_Inv {op : Op} {s : DFEState} (hI : Inv s) :
    Inv (decoupled_fe_retire op s) := by
  unfold decoupled_fe_retire
  split
  · exact ⟨hI.1, hI.2.1, hI.2.2⟩
  · exact hI

/-- The master invariant: every reachable state has a well-formed FTQ, an
adjacency-chained builder, and position-consistent iterators. -/
theorem inv_reachable (cfg : Config) (s : DFEState) (h : Reachable cfg s) : Inv s := by
  induction h with
  | init fe0 v0 =>
    refine ⟨?_, ?_, ?_⟩
    · intro ft hft
      exact absurd hft (List.not_mem_nil ft)
    · exact List.chain'_nil
    · intro it hit
      exact absurd hit (List.not_mem_nil it)
  | producer f p hr hstep ih => exact producer_step_Inv hstep ih
  | fetch_ft hr hstep ih => exact fetch_ft_Inv hstep ih
  | fetch_op hr hstep ih => exact fetch_op_Inv hstep ih
  | return_op op hr hstep ih => exact return_op_Inv hstep ih
  | new_iter hr ih => exact new_iter_Inv ih
  | iter_advance i hi hr hstep ih => exact iter_advance_Inv hi hstep ih
  | recovery ri hr hstep ih => exact recover_Inv hstep
  | retire op hr ih => exact retire_Inv ih
  | env c fe u hr ih => exact ⟨ih.1, ih.2.1, ih.2.2⟩
/-! ## Claim C5: FT well-formedness invariant -/

/-- C5: in every reachable state, every FT stored in the FTQ has a nonzero
start address, nonzero byte length, a non-empty op sequence, a recorded
closing reason, and adjacency-chained ops (`bom` ops continue at the
previous op's end address; micro-ops of one macro-instruction share the
address). -/
theorem C5_ftq_wellformedness (cfg : Config) (s : DFEState) (hr : Reachable cfg s)
    (ft : FT) (hft : ft ∈ s.ftq) :
    ft.start ≠ 0 ∧ ft.length ≠ 0 ∧ ft.ops ≠ [] ∧
      ft.ended_by ≠ FT_Ended_By.INIT ∧ ft.ops.Chain' opAdj :=
  (inv_reachable cfg s hr).1 ft hft

/-- C5 (witness): well-formedness of the concrete FT pushed by one
producer iteration from the initial state. -/
theorem C5_ftq_wellformedness_witness :
    Reachable cfg0 s5 ∧ ft5 ∈ s5.ftq ∧
    (ft5.start ≠ 0 ∧ ft5.length ≠ 0 ∧ ft5.ops ≠ [] ∧
      ft5.ended_by ≠ FT_Ended_By.INIT ∧ ft5.ops.Chain' opAdj) :=
  ⟨Reachable.producer f5 0 (Reachable.init 0 u0) (by decide),
    by decide,
    C5_ftq_wellformedness cfg0 s5
      (Reachable.producer f5 0 (Reachable.init 0 u0) (by decide)) ft5 (by decide)⟩

/-! ## Claim C10: iterators over an empty FTQ sit at zero -/

/-- C10: in every reachable state with an empty FTQ, every registered
iterator sits exactly at `ft_pos = op_pos = flattened_op_pos = 0`, and in
particular the empty-FTQ assertion inside `decoupled_fe_ftq_iter_get`
passes (the call returns the no-op result instead of aborting). -/
theorem C10_empty_ftq_iterators_zero (cfg : Config) (s : DFEState)
    (hr : Reachable cfg s) (hempty : s.ftq = []) :
    ∀ it ∈ s.iters, it = Iter.zero ∧ decoupled_fe_ftq_iter_get s it = some none := by
  obtain ⟨_, _, hi⟩ := inv_reachable cfg s hr
  intro it hit
  obtain ⟨hle, hpark, _, hflat⟩ := hi it hit
  rw [hempty] at hle hpark hflat
  have h0 : it.ft_pos = 0 := Nat.le_zero.mp hle
  have hop : it.op_pos = 0 := hpark h0
  have hf : it.flattened_op_pos = 0 := by
    rw [hflat, hop]
    simp [sumOps]
  have hz : it = Iter.zero := by
    cases it
    simp_all [Iter.zero]
  refine ⟨hz, ?_⟩
  unfold decoupled_fe_ftq_iter_get
  rw [hempty, hz]
  simp [Iter.zero]

/-- C10 (witness): the property at the concrete reachable state with one
registered iterator and an empty FTQ. -/
theorem C10_empty_ftq_iterators_zero_witness :
    Reachable cfg0 s10 ∧ s10.ftq = [] ∧ Iter.zero ∈ s10.iters ∧
    (Iter.zero = Iter.zero ∧ decoupled_fe_ftq_iter_get s10 Iter.zero = some none) :=
  ⟨Reachable.new_iter (Reachable.init 0 u0), rfl, by decide,
    C10_empty_ftq_iterators_zero cfg0 s10 (Reachable.new_iter (Reachable.init 0 u0))
      rfl Iter.zero (by decide)⟩

/-- C1 (witness): the amended rebase statement at a concrete pop with an
iterator past the popped FT. -/
theorem C1_iter_rebase_amended_witness :
    decoupled_fe_fetch_ft cfg0 sC1w = some (4096, 8, sC1w') ∧
    (sC1w'.iters.length = sC1w.iters.length ∧
      ∀ i (hi : i < sC1w.iters.length) (hi' : i < sC1w'.iters.length),
        (0 < (sC1w.iters.get ⟨i, hi⟩).ft_pos →
          sC1w'.iters.get ⟨i, hi'⟩ =
            ⟨(sC1w.iters.get ⟨i, hi⟩).ft_pos - 1, (sC1w.iters.get ⟨i, hi⟩).op_pos,
              (sC1w.iters.get ⟨i, hi⟩).flattened_op_pos - sC1w'.ft_in_use.ops.length⟩ ∧
          sC1w'.ft_in_use.ops.length ≤ (sC1w.iters.get ⟨i, hi⟩).flattened_op_pos ∧
          opIdentAt sC1w'
              ((sC1w.iters.get ⟨i, hi⟩).flattened_op_pos - sC1w'.ft_in_use.ops.length) =
            opIdentAt sC1w (sC1w.iters.get ⟨i, hi⟩).flattened_op_pos) ∧
        ((sC1w.iters.get ⟨i, hi⟩).ft_pos = 0 → sC1w'.iters.get ⟨i, hi'⟩ = ⟨0, 0, 0⟩)) :=
  ⟨by decide, C1_iter_rebase_amended cfg0 sC1w 4096 8 sC1w' (by decide)⟩
end DecoupledFE
